import Mathlib

set_option maxRecDepth 65536

/-!
Shallow embedding of the conversational query planner of the pss-elevenlabs
server (`server.js`).  JavaScript strings are modelled as `String`/`List Char`,
regular-expression matching is modelled by explicit scanners with the same
left-to-right, leftmost-match semantics, and all I/O (completion API, database
RPC gateway, file-backed memory) is modelled by explicit state passing and
response oracles.  Definitions keep the source function names.
-/

namespace Pss

/-! ## Character and string primitives (ECMAScript semantics on ASCII) -/

/-- JavaScript `\s` white-space class (ASCII part). -/
def isJsSpace (c : Char) : Bool :=
  c = ' ' ∨ c = '\t' ∨ c = '\n' ∨ c = '\r' ∨ c = '\x0b' ∨ c = '\x0c'

/-- JavaScript `\w` word-character class. -/
def isWordChar (c : Char) : Bool :=
  ('a' ≤ c ∧ c ≤ 'z') ∨ ('A' ≤ c ∧ c ≤ 'Z') ∨ ('0' ≤ c ∧ c ≤ '9') ∨ c = '_'

/-- JavaScript `\d` digit class. -/
def isDigitChar (c : Char) : Bool := '0' ≤ c ∧ c ≤ '9'

/-- ASCII lower-casing, as `String.prototype.toLowerCase` acts on ASCII. -/
def lowerChar (c : Char) : Char :=
  if 'A' ≤ c ∧ c ≤ 'Z' then Char.ofNat (c.toNat + 32) else c

def lowerStr (l : List Char) : List Char := l.map lowerChar

/-- Case-sensitive "is this list a prefix of that one". -/
def startsWithCS : List Char → List Char → Bool
  | [], _ => true
  | _ :: _, [] => false
  | p :: ps, c :: cs => p = c && startsWithCS ps cs

/-- Case-insensitive prefix test (regex `i` flag on a literal pattern). -/
def startsWithCI (pat s : List Char) : Bool :=
  startsWithCS (lowerStr pat) (lowerStr s)

/-- Case-sensitive substring occurrence anywhere in `s`. -/
def containsSub (pat s : List Char) : Bool :=
  (List.range (s.length + 1)).any fun i => startsWithCS pat (s.drop i)

/-- Case-insensitive substring occurrence (regex `i` flag on a literal). -/
def containsSubCI (pat s : List Char) : Bool :=
  (List.range (s.length + 1)).any fun i => startsWithCI pat (s.drop i)

/-- String-level wrappers. -/
def containsStr (s pat : String) : Bool := containsSub pat.data s.data

def containsStrCI (s pat : String) : Bool := containsSubCI pat.data s.data

/-- `String.prototype.trim`. -/
def jsTrim (l : List Char) : List Char :=
  ((l.dropWhile isJsSpace).reverse.dropWhile isJsSpace).reverse

/-- Helper for `collapseSpaces`: the flag records whether the previous
character was part of a whitespace run already emitted as one space. -/
def collapseSpacesGo : Bool → List Char → List Char
  | _, [] => []
  | inRun, c :: cs =>
    if isJsSpace c then
      if inRun then collapseSpacesGo true cs else ' ' :: collapseSpacesGo true cs
    else
      c :: collapseSpacesGo false cs

/-- `replace(/\s+/g, " ")`: collapse every run of whitespace to one space. -/
def collapseSpaces (l : List Char) : List Char := collapseSpacesGo false l

/-- `replace(/[?.!]+$/, "")`: strip a trailing run of `?`, `.`, `!`. -/
def stripTrailingPunct (l : List Char) : List Char :=
  (l.reverse.dropWhile fun c => c = '?' ∨ c = '.' ∨ c = '!').reverse

/-!  ## Prompt normalisation (source: `normalizePrompt`, `normalizePromptKey`) -/

/-- `normalizePrompt`: trim, collapse inner whitespace, strip trailing `?.!`. -/
def normalizePrompt (text : String) : String :=
  ⟨stripTrailingPunct (collapseSpaces (jsTrim text.data))⟩

/-- `normalizePromptKey`: `normalizePrompt(text).toLowerCase()`. -/
def normalizePromptKey (text : String) : String :=
  ⟨lowerStr (normalizePrompt text).data⟩

/-!  ## Regex-style scanning combinators

Each JavaScript regex used by the planner is modelled by an explicit scanner
with the engine's semantics: candidate start positions are tried left to
right, and at a given start the alternatives/backtracking behave as noted at
each definition.  Matching is on `List Char` with `lowerChar` applied for the
`i` flag. -/

/-- `\b` boundary at position `i` of `s` (between `s[i-1]` and `s[i]`). -/
def boundaryAt (s : List Char) (i : Nat) : Bool :=
  let before := if h : 0 < i ∧ i - 1 < s.length then isWordChar (s.get ⟨i - 1, h.2⟩) else false
  let after := if h : i < s.length then isWordChar (s.get ⟨i, h⟩) else false
  before ≠ after

/-- Case-insensitive test for the literal `pat` at one exact position. -/
def litAtCI (pat s : List Char) (i : Nat) : Bool :=
  startsWithCI pat (s.drop i)

/-- `\bvs\b`-style test: word `w` occurs somewhere with boundaries. -/
def containsWordCI (w : String) (s : List Char) : Bool :=
  (List.range (s.length + 1)).any fun i =>
    litAtCI w.data s i && boundaryAt s i && boundaryAt s (i + w.data.length)

/-!  ## Intent / prompt-shape predicates -/

/-- `detectMultiTeamPrompt`: `/(\bvs\b|versus|against|comparing|between)/i`
on the normalised prompt. -/
def detectMultiTeamPrompt (prompt : String) : Bool :=
  let n := (normalizePrompt prompt).data
  containsWordCI "vs" n || containsSubCI "versus".data n ||
    containsSubCI "against".data n || containsSubCI "comparing".data n ||
    containsSubCI "between".data n

/-- `looksLikeNewQuestion`: keyword regex (plain substrings, no `\b`) on the
lower-cased normalised text. -/
def looksLikeNewQuestion (text : String) : Bool :=
  let n := (normalizePromptKey text).data
  ["show", "compare", "shot map", "pass map", "heatmap", "pitch plot",
    "pass network", "radar", "pizza", "bumpy", "draw", "visualize", "plot",
    "how many", "what", "which", "who", "when", "where"].any
    fun k => containsSub k.data n

/-- `isVisualizationPrompt`. -/
def isVisualizationPrompt (text : String) : Bool :=
  let n := (normalizePromptKey text).data
  ["shot map", "pass map", "heatmap", "pass network", "pitch plot", "pitch",
    "visual", "chart"].any fun k => containsSub k.data n

/-- `isDatabaseIntent`: visualisation vocabulary, else analytics nouns. -/
def isDatabaseIntent (prompt : String) : Bool :=
  let n := (normalizePromptKey prompt).data
  isVisualizationPrompt ⟨n⟩ ||
    ["goal", "goals", "shot", "shots", "pass", "passes", "assist", "assists",
      "xg", "block", "blocks", "tackle", "tackles", "interception",
      "interceptions", "foul", "fouls", "card", "cards", "corner", "corners",
      "match", "season", "team", "player", "nickname"].any
      fun k => containsSub k.data n

/-- `needsScopeForVisual`: visual vocabulary with no season and no
match/opponent reference.  The season test is
`/(20\d{2}\/20\d{2}|season|2023\/2024)/`, the match test is
`/(match\s*id|vs\s|against\s|opponent|home|away)/`, both on the lower-cased
normalised text. -/
def hasSeasonToken (n : List Char) : Bool :=
  (List.range (n.length + 1)).any (fun i =>
    let at9 := n.drop i
    startsWithCS ['2', '0'] at9 &&
      (match at9 with
        | _ :: _ :: a :: b :: '/' :: '2' :: '0' :: c :: d :: _ =>
          isDigitChar a && isDigitChar b && isDigitChar c && isDigitChar d
        | _ => false)) ||
    containsSub "season".data n || containsSub "2023/2024".data n

def hasMatchToken (n : List Char) : Bool :=
  ((List.range (n.length + 1)).any fun i =>
    let r := n.drop i
    startsWithCS "match".data r &&
      startsWithCS "id".data ((r.drop 5).dropWhile isJsSpace)) ||
  containsSub "vs ".data n || containsSub "against ".data n ||
  containsSub "opponent".data n || containsSub "home".data n ||
  containsSub "away".data n

def needsScopeForVisual (text : String) : Bool :=
  let n := (normalizePromptKey text).data
  let visual := ["shot map", "pass map", "heatmap", "pass network",
    "pitch plot"].any fun k => containsSub k.data n
  visual && !hasSeasonToken n && !hasMatchToken n

/-!  ## SQL-literal escaping and fuzzy ILIKE pattern -/

/-- `value.replace(/'/g, "''")`: double every single quote. -/
def escQuotes : List Char → List Char
  | [] => []
  | c :: cs => if c = '\x27' then '\x27' :: '\x27' :: escQuotes cs else c :: escQuotes cs

def escapeSqlQuotes (v : String) : String := ⟨escQuotes v.data⟩

/-- `fuzzyLikePattern`: strip whitespace, then intersperse `%` between the
remaining characters (`compact.split("").join("%")`). -/
def interleavePercent : List Char → List Char
  | [] => []
  | [c] => [c]
  | c :: cs => c :: '%' :: interleavePercent cs

def fuzzyLikePattern (value : String) : String :=
  let compact := value.data.filter fun c => !isJsSpace c
  ⟨interleavePercent compact⟩

/-!  ## Global string replacement

`String.prototype.replace` with a `g`-flagged literal pattern: scan left to
right, replace each non-overlapping occurrence, never re-scan the replacement
text.  The `Nat` argument is fuel consumed one unit per examined character
(structural recursion so the kernel can evaluate); callers pass the input
length, which always suffices because a match consumes at least one
character. -/

def replaceCIAux (pat rep : List Char) : Nat → List Char → List Char
  | _, [] => []
  | 0, s => s
  | fuel + 1, c :: cs =>
    if !pat.isEmpty && startsWithCI pat (c :: cs) then
      rep ++ replaceCIAux pat rep fuel ((c :: cs).drop pat.length)
    else
      c :: replaceCIAux pat rep fuel cs

/-- `replace(new RegExp(literal, "gi"), rep)` for a literal pattern. -/
def replaceAllCI (s pat rep : String) : String :=
  ⟨replaceCIAux pat.data rep.data s.data.length s.data⟩

/-- Is the last character of the pattern a word character? -/
def lastIsWord (pat : List Char) : Bool :=
  match pat.getLast? with
  | some d => isWordChar d
  | none => false

/-- Word-boundary right after a match: end of input or a non-word char.
(Adequate for patterns that end in a word character, as the digit patterns
used with this scanner do.) -/
def wordBoundaryAfter : List Char → Bool
  | [] => true
  | d :: _ => !isWordChar d

/-- `replace(new RegExp("\b" + lit + "\b", "g"), rep)` for a literal made of
word characters (the `last_n` number).  `prevWord` tracks whether the
previously consumed original character was a word character. -/
def replaceWordAux (pat rep : List Char) : Bool → Nat → List Char → List Char
  | _, _, [] => []
  | _, 0, s => s
  | prevWord, fuel + 1, c :: cs =>
    if !pat.isEmpty && startsWithCS pat (c :: cs) && !prevWord &&
        wordBoundaryAfter ((c :: cs).drop pat.length) then
      rep ++ replaceWordAux pat rep (lastIsWord pat) fuel ((c :: cs).drop pat.length)
    else
      c :: replaceWordAux pat rep (isWordChar c) fuel cs

def replaceAllWord (s pat rep : String) : String :=
  ⟨replaceWordAux pat.data rep.data false s.data.length s.data⟩

/-- ECMAScript `GetSubstitution` for a string replacement against a pattern
with no capture groups (the shape of every `fillQueryTemplate` regex):
`$$` is a literal dollar, `$&` the matched text, a dollar followed by a
backtick (`\x60`) the part of the subject before the match, `$'` the part
after it; anything else after `$` — including digits, since the pattern has
no groups — stays literal. -/
def expandDollar (matched before after : List Char) : List Char → List Char
  | [] => []
  | c :: rest =>
    if c = '$' then
      match rest with
      | [] => ['$']
      | d :: rest2 =>
        if d = '$' then '$' :: expandDollar matched before after rest2
        else if d = '&' then matched ++ expandDollar matched before after rest2
        else if d.toNat = 96 then before ++ expandDollar matched before after rest2
        else if d = '\'' then after ++ expandDollar matched before after rest2
        else '$' :: expandDollar matched before after (d :: rest2)
    else c :: expandDollar matched before after rest

/-- The scan of `replaceCIAux` with the replacement put through
`expandDollar` at each match (`orig` is the whole subject string, `off` the
absolute offset of the unprocessed suffix, so the dollar escapes can see the
matched text and both context slices). -/
def replaceDollarCIAux (pat rep orig : List Char) (off : Nat) :
    Nat → List Char → List Char
  | _, [] => []
  | 0, s => s
  | fuel + 1, c :: cs =>
    if !pat.isEmpty && startsWithCI pat (c :: cs) then
      expandDollar ((c :: cs).take pat.length) (orig.take off)
          (orig.drop (off + pat.length)) rep ++
        replaceDollarCIAux pat rep orig (off + pat.length) fuel
          ((c :: cs).drop pat.length)
    else
      c :: replaceDollarCIAux pat rep orig (off + 1) fuel cs

/-- `replace(/lit/gi, rep)` where `rep` is an arbitrary (user-derived)
replacement string, with full `$`-substitution.  `replaceAllCI` is the
special case of a `$`-free replacement, adequate for the constant
placeholder replacements of `buildQueryTemplate`. -/
def replaceAllSubstCI (s pat rep : String) : String :=
  ⟨replaceDollarCIAux pat.data rep.data s.data 0 s.data.length s.data⟩

/-!  ## SQL template engine (source: `buildQueryTemplate`, `fillQueryTemplate`) -/

/-- The extracted parameter set (`extractParamsFromPrompt` result shape). -/
structure QueryParams where
  team_a : Option String := none
  team_b : Option String := none
  team : Option String := none
  season : Option String := none
  last_n : Option Nat := none
deriving Repr, DecidableEq

/-- JS truthiness for an optional string field (`if (params.x)`): present and
non-empty. -/
def truthyStr : Option String → Option String
  | some v => if v = "" then none else some v
  | none => none

/-- `buildQueryTemplate(query, params)`: for each truthy parameter, replace
every case-insensitive occurrence of its quote-escaped literal value by the
placeholder; `last_n` is replaced with `\b` word boundaries, case-sensitively.
Returns `none` exactly when the query is falsy (empty). -/
def buildQueryTemplate (query : String) (params : QueryParams) : Option String :=
  if query = "" then none
  else
    let t0 := query
    let t1 := match truthyStr params.team_a with
      | some v => replaceAllCI t0 (escapeSqlQuotes v) "{{team_a}}"
      | none => t0
    let t2 := match truthyStr params.team_b with
      | some v => replaceAllCI t1 (escapeSqlQuotes v) "{{team_b}}"
      | none => t1
    let t3 := match truthyStr params.team with
      | some v => replaceAllCI t2 (escapeSqlQuotes v) "{{team}}"
      | none => t2
    let t4 := match truthyStr params.season with
      | some v => replaceAllCI t3 (escapeSqlQuotes v) "{{season}}"
      | none => t3
    let t5 := match params.last_n with
      | some n => if n ≠ 0 then replaceAllWord t4 (toString n) "{{last_n}}" else t4
      | none => t4
    some t5

/-- `fillQueryTemplate(template, params)`: replace each placeholder token
(case-insensitively, as the source regexes carry the `i` flag) by the
quote-escaped literal value; `last_n` is substituted whenever it is non-null,
as a bare integer.  The replacement strings are user-derived, so each pass
carries the ECMAScript `$`-substitution of `String.prototype.replace`. -/
def fillQueryTemplate (template : String) (params : QueryParams) : String :=
  let q0 := template
  let q1 := match truthyStr params.team_a with
    | some v => replaceAllSubstCI q0 "{{team_a}}" (escapeSqlQuotes v)
    | none => q0
  let q2 := match truthyStr params.team_b with
    | some v => replaceAllSubstCI q1 "{{team_b}}" (escapeSqlQuotes v)
    | none => q1
  let q3 := match truthyStr params.team with
    | some v => replaceAllSubstCI q2 "{{team}}" (escapeSqlQuotes v)
    | none => q2
  let q4 := match truthyStr params.season with
    | some v => replaceAllSubstCI q3 "{{season}}" (escapeSqlQuotes v)
    | none => q3
  match params.last_n with
  | some n => replaceAllSubstCI q4 "{{last_n}}" (toString n)
  | none => q4

/-!  ## Round-trip analysis for the template engine

`scanExactAux` mirrors the scan of `replaceCIAux` and asserts that every
case-insensitive match the replacement pass finds is in fact an exact
(case-sensitive) occurrence of the pattern. -/

def scanExactAux (pat : List Char) : Nat → List Char → Bool
  | _, [] => true
  | 0, _ => true
  | fuel + 1, c :: cs =>
    if !pat.isEmpty && startsWithCI pat (c :: cs) then
      startsWithCS pat (c :: cs) && scanExactAux pat fuel ((c :: cs).drop pat.length)
    else
      scanExactAux pat fuel cs

def scanExactCI (pat s : String) : Bool := scanExactAux pat.data s.data.length s.data

/-!  ## Generic scanner pieces for the concrete planner regexes -/

/-- Leftmost-match driver: try candidate start positions `0, 1, …, n-1`. -/
def firstSome {α : Type} (n : Nat) (f : Nat → Option α) : Option α :=
  (List.range n).findSome? f

/-- Decimal digits to `Number(...)` value. -/
def digitsToNat (ds : List Char) : Nat :=
  ds.foldl (fun acc c => acc * 10 + (c.toNat - '0'.toNat)) 0

/-- JS `.` (dot) never matches a line terminator. -/
def dotOk (l : List Char) : Bool := l.all fun c => c ≠ '\n' ∧ c ≠ '\r'

/-- `last\s+(\d+)\s+(alt₁|alt₂|…)` with the `i` flag: scan for `last`, then
greedy whitespace, greedy digits, greedy whitespace, then one of the
alternative unit stems.  Nothing follows the unit in the source regexes, so a
prefix test of each stem suffices. -/
def matchLastNum (alts : List String) (text : List Char) : Option Nat :=
  firstSome (text.length + 1) fun i =>
    let r := text.drop i
    if startsWithCI "last".data r then
      let r1 := r.drop 4
      let sp1 := r1.takeWhile isJsSpace
      if sp1.isEmpty then none else
      let r2 := r1.drop sp1.length
      let ds := r2.takeWhile isDigitChar
      if ds.isEmpty then none else
      let r3 := r2.drop ds.length
      let sp2 := r3.takeWhile isJsSpace
      if sp2.isEmpty then none else
      let r4 := r3.drop sp2.length
      if alts.any (fun a => startsWithCI a.data r4) then some (digitsToNat ds)
      else none
    else none

/-- `(\d{4}\/\d{4})`: first occurrence of a season literal. -/
def matchSeason (text : List Char) : Option String :=
  firstSome (text.length + 1) fun i =>
    match text.drop i with
    | a :: b :: c :: d :: '/' :: e :: f :: g :: h :: _ =>
      if isDigitChar a && isDigitChar b && isDigitChar c && isDigitChar d &&
          isDigitChar e && isDigitChar f && isDigitChar g && isDigitChar h then
        some ⟨[a, b, c, d, '/', e, f, g, h]⟩
      else none
    | _ => none

/-- `(?:between|comparing) (.+?) and (.+?)$` with the `i` flag.  The first
group is lazy, the second is forced to the end of input by `$`; candidate
start positions and then group-1 lengths are tried left to right. -/
def matchBetweenAnd (text : List Char) : Option (String × String) :=
  firstSome (text.length + 1) fun i =>
    let r := text.drop i
    let tryWord : String → Option (String × String) := fun w =>
      if startsWithCI (w.data ++ [' ']) r then
        let afterWord := r.drop (w.data.length + 1)
        firstSome (afterWord.length + 1) fun j =>
          if j = 0 then none
          else if startsWithCI " and ".data (afterWord.drop j) then
            let g1 := afterWord.take j
            let g2 := afterWord.drop (j + 5)
            if !g2.isEmpty && dotOk g1 && dotOk g2 then some (⟨g1⟩, ⟨g2⟩)
            else none
          else none
      else none
    (tryWord "between").orElse fun _ => tryWord "comparing"

/-- `(.+?)\s+(?:vs\.?|versus|against)\s+(.+)$` with the `i` flag.  On
newline-free text the leftmost match starts at position 0; group 1 grows
lazily and the separator alternatives are tried in source order. -/
def matchVsSplit (text : List Char) : Option (String × String) :=
  firstSome (text.length + 1) fun j =>
    if j = 0 then none
    else
      let g1 := text.take j
      let r := text.drop j
      let sp := r.takeWhile isJsSpace
      if sp.isEmpty then none
      else
        let r1 := r.drop sp.length
        ["vs.", "vs", "versus", "against"].findSome? fun sep =>
          if startsWithCI sep.data r1 then
            let r2 := r1.drop sep.data.length
            let sp2 := r2.takeWhile isJsSpace
            if sp2.isEmpty then none
            else
              let g2 := r2.drop sp2.length
              if !g2.isEmpty && dotOk g1 && dotOk g2 then some (⟨g1⟩, ⟨g2⟩)
              else none
          else none

/-- `\bvs\b|versus|against` variant used by `parseLastShotsComparePrompt`
(`(.+?)\s+(?:vs\b|versus|against)\s+(.+)$`): same as above but the `vs`
alternative carries a word boundary instead of an optional dot.  After `vs`
the regex requires `\s+`, so the boundary holds exactly when the next
character is not a word character, which the whitespace requirement already
enforces; the alternatives therefore reduce to the same scanner without the
`"vs."` case. -/
def matchVsWordSplit (text : List Char) : Option (String × String) :=
  firstSome (text.length + 1) fun j =>
    if j = 0 then none
    else
      let g1 := text.take j
      let r := text.drop j
      let sp := r.takeWhile isJsSpace
      if sp.isEmpty then none
      else
        let r1 := r.drop sp.length
        ["vs", "versus", "against"].findSome? fun sep =>
          if startsWithCI sep.data r1 then
            let r2 := r1.drop sep.data.length
            let sp2 := r2.takeWhile isJsSpace
            if sp2.isEmpty then none
            else
              let g2 := r2.drop sp2.length
              if !g2.isEmpty && dotOk g1 && dotOk g2 then some (⟨g1⟩, ⟨g2⟩)
              else none
          else none

/-- `shots? (?:that )?(.+?) conceded` with the `i` flag. -/
def matchShotsConceded (text : List Char) : Option String :=
  firstSome (text.length + 1) fun i =>
    let r := text.drop i
    let tryTail : List Char → Option String := fun rest =>
      firstSome (rest.length + 1) fun j =>
        if j = 0 then none
        else if startsWithCI " conceded".data (rest.drop j) then
          let g1 := rest.take j
          if dotOk g1 then some ⟨g1⟩ else none
        else none
    if startsWithCI "shots ".data r then
      let rest := r.drop 6
      (if startsWithCI "that ".data rest then tryTail (rest.drop 5) else none).orElse
        fun _ => tryTail rest
    else if startsWithCI "shot ".data r then
      let rest := r.drop 5
      (if startsWithCI "that ".data rest then tryTail (rest.drop 5) else none).orElse
        fun _ => tryTail rest
    else none

/-- `conceded shots? (?:by|for) (.+?)(?:\s+in|\s+last|$)` with the `i` flag. -/
def matchConcededShotsBy (text : List Char) : Option String :=
  firstSome (text.length + 1) fun i =>
    let r := text.drop i
    let tryRest : List Char → Option String := fun rest =>
      firstSome (rest.length + 1) fun j =>
        if j = 0 then none
        else
          let g1 := rest.take j
          let after := rest.drop j
          let sp := after.takeWhile isJsSpace
          let stop :=
            (!sp.isEmpty &&
              (startsWithCI "in".data (after.drop sp.length) ||
                startsWithCI "last".data (after.drop sp.length))) ||
            after.isEmpty
          if stop && dotOk g1 then some ⟨g1⟩ else none
    if startsWithCI "conceded shots ".data r then
      (["by ", "for "].findSome? fun w =>
        if startsWithCI w.data (r.drop 15) then tryRest (r.drop (15 + w.data.length))
        else none)
    else if startsWithCI "conceded shot ".data r then
      (["by ", "for "].findSome? fun w =>
        if startsWithCI w.data (r.drop 14) then tryRest (r.drop (14 + w.data.length))
        else none)
    else none

/-!  ## Anchored-replace parsers (`cleanEntityName`, `stripTeamPrefix`) -/

/-- Consume the literal `lit` case-insensitively. -/
def eatCI (lit : String) (l : List Char) : Option (List Char) :=
  if startsWithCI lit.data l then some (l.drop lit.data.length) else none

/-- Consume `\s+` (greedy). -/
def eatSpaces1 (l : List Char) : Option (List Char) :=
  let sp := l.takeWhile isJsSpace
  if sp.isEmpty then none else some (l.drop sp.length)

/-- Consume `\d+` (greedy). -/
def eatDigits1 (l : List Char) : Option (List Char) :=
  let ds := l.takeWhile isDigitChar
  if ds.isEmpty then none else some (l.drop ds.length)

/-- Consume an optional `(the\s+)?`: the quantifier is greedy, and the regex
engine retries without the group if the continuation fails. -/
def withOptThe (core : List Char → Option (List Char)) (l : List Char) :
    Option (List Char) :=
  match (eatCI "the" l).bind eatSpaces1 with
  | some r =>
    match core r with
    | some r2 => some r2
    | none => core l
  | none => core l

/-- `(taken\s+by|by|for)` in source order. -/
def eatTakenByFor (l : List Char) : Option (List Char) :=
  match (eatCI "taken" l).bind eatSpaces1 with
  | some r =>
    match eatCI "by" r with
    | some r2 => some r2
    | none => (eatCI "by" l).orElse fun _ => eatCI "for" l
  | none => (eatCI "by" l).orElse fun _ => eatCI "for" l

/-- Apply an anchored replace-with-empty: drop the matched prefix, else keep. -/
def applyAnchored (m : List Char → Option (List Char)) (l : List Char) :
    List Char :=
  (m l).getD l

/-- `^(the\s+)?last\s+\d+\s+shots?\s+(taken\s+by|by|for)\s+`. -/
def eatLastShotsBy (l : List Char) : Option (List Char) :=
  withOptThe
    (fun r =>
      (eatCI "last" r).bind fun r =>
      (eatSpaces1 r).bind fun r =>
      (eatDigits1 r).bind fun r =>
      (eatSpaces1 r).bind fun r =>
      (((eatCI "shots" r).orElse fun _ => eatCI "shot" r)).bind fun r =>
      (eatSpaces1 r).bind fun r =>
      (eatTakenByFor r).bind fun r =>
      eatSpaces1 r)
    l

/-- `^(the\s+)?shots?\s+(taken\s+by|by|for)\s+`. -/
def eatShotsBy (l : List Char) : Option (List Char) :=
  withOptThe
    (fun r =>
      (((eatCI "shots" r).orElse fun _ => eatCI "shot" r)).bind fun r =>
      (eatSpaces1 r).bind fun r =>
      (eatTakenByFor r).bind fun r =>
      eatSpaces1 r)
    l

/-- `stripTeamPrefix`: three anchored replaces then `trim`. -/
def stripTeamPrefix (text : String) : String :=
  let l1 := applyAnchored eatLastShotsBy text.data
  let l2 := applyAnchored eatShotsBy l1
  let l3 := applyAnchored (fun l => (eatCI "the" l).bind eatSpaces1) l2
  ⟨jsTrim l3⟩

/-- `^(show me|show|compare|comparing|between|give me|display|plot|draw|visualize)\s+`
(alternatives in source order, each followed by `\s+`). -/
def eatLeadVerb (l : List Char) : Option (List Char) :=
  ["show me", "show", "compare", "comparing", "between", "give me", "display",
    "plot", "draw", "visualize"].findSome? fun w =>
    (eatCI w l).bind eatSpaces1

/-- `cleanEntityName`. -/
def cleanEntityName (value : String) : String :=
  let t0 := jsTrim value.data
  let t1 := applyAnchored eatLeadVerb t0
  let t2 := (stripTeamPrefix ⟨t1⟩).data
  let t3 := applyAnchored (withOptThe fun r => (eatCI "team" r).bind eatSpaces1) t2
  let t4 := applyAnchored (withOptThe fun r => (eatCI "player" r).bind eatSpaces1) t3
  ⟨jsTrim t4⟩

/-!  ## Conversation memory (the `memory.json` document) -/

/-- An alias entry (`{type, value}`). -/
structure AliasEntry where
  type : String
  value : String
deriving Repr, DecidableEq

/-- One clarification scope object (`scopes[scopeKey]`). -/
structure ScopeEntry where
  season : Option String := none
  opponent : Option String := none
deriving Repr, DecidableEq

/-- The `scopes` object.  The fixed `last_*` keys are modelled as fields and
the per-clarification keys (`scopes[scopeKey]`) as an association list. -/
structure Scopes where
  last_entity : Option String := none
  last_teams : Option (String × String) := none
  last_match : Option Nat := none
  last_pass_map : Option (String × Nat) := none
  clar : List (String × ScopeEntry) := []
deriving Repr, DecidableEq

/-- `ConversationMemory` (`{aliases, scopes}`); the alias map keeps JS object
insertion order. -/
structure Memory where
  aliases : List (String × AliasEntry) := []
  scopes : Scopes := {}
deriving Repr, DecidableEq

/-- Split on whitespace runs, dropping empty pieces (token list of a key). -/
def splitWsGo (cur : List Char) : List Char → List (List Char)
  | [] => if cur.isEmpty then [] else [cur.reverse]
  | c :: cs =>
    if isJsSpace c then
      if cur.isEmpty then splitWsGo [] cs else cur.reverse :: splitWsGo [] cs
    else splitWsGo (c :: cur) cs

def splitWs (key : String) : List (List Char) := splitWsGo [] key.data

/-- Match the token sequence of `buildAliasRegex` (tokens joined by `\s*`)
starting at a fixed offset; returns the matched length.  `escapeRegex` only
makes the key characters literal, so literal matching models it. -/
def tokensEat : List (List Char) → List Char → Option Nat
  | [], _ => some 0
  | [t], r => if startsWithCI t r then some t.length else none
  | t :: ts, r =>
    if startsWithCI t r then
      let r1 := r.drop t.length
      let sp := r1.takeWhile isJsSpace
      (tokensEat ts (r1.drop (sp.length))).map fun k => t.length + sp.length + k
    else none

/-- First match of `buildAliasRegex(key)` in `text`: position and length. -/
def firstAliasMatch (key : String) (text : List Char) : Option (Nat × Nat) :=
  firstSome (text.length + 1) fun i =>
    if boundaryAt text i then
      (tokensEat (splitWs key) (text.drop i)).bind fun len =>
        if boundaryAt text (i + len) then some (i, len) else none
    else none

/-- `buildAliasRegex(key).test(text)`. -/
def aliasRegexTest (key : String) (text : String) : Bool :=
  (firstAliasMatch key text.data).isSome

/-- `findKnownTeam(text, memory)`. -/
def findKnownTeam (text : String) (memory : Memory) : Option String :=
  memory.aliases.findSome? fun kv =>
    if kv.2.type ≠ "team_name" then none
    else
      let result := if kv.2.value = "" then kv.1 else kv.2.value
      if aliasRegexTest kv.1 text then some result
      else if aliasRegexTest kv.2.value text then some result
      else none

/-- `hasKnownAlias(text, memory)`. -/
def hasKnownAlias (text : String) (memory : Memory) : Bool :=
  memory.aliases.any fun kv => aliasRegexTest kv.1 text

/-- One step of `resolveAlias`: a non-global replace of the first regex match
through the callback that keeps the match when the text at the match offset
already spells the alias value (case-insensitively). -/
def resolveAliasStep (text : String) (key : String) (v : AliasEntry) : String :=
  match firstAliasMatch key text.data with
  | none => text
  | some (off, len) =>
    let fullValue := v.value
    let slice := (text.data.drop off).take fullValue.data.length
    if lowerStr slice = lowerStr fullValue.data then text
    else if v.type = "team_name" ∨ v.type = "player_name" ∨
        v.type = "player_nickname" then
      ⟨text.data.take off ++ fullValue.data ++ text.data.drop (off + len)⟩
    else text

/-- `resolveAlias(text, memory)`: fold the step over the alias entries in
insertion order. -/
def resolveAlias (text : String) (memory : Memory) : String :=
  memory.aliases.foldl (fun t kv => resolveAliasStep t kv.1 kv.2) text

/-!  ## Parameter extraction (source: `extractParamsFromPrompt`) -/

def extractParamsFromPrompt (prompt : String) (memory : Memory) : QueryParams :=
  let normalized := normalizePrompt prompt
  let n := normalized.data
  let lastN := matchLastNum ["matche"] n
  let season := matchSeason n
  let cmp := (matchBetweenAnd n).orElse fun _ => matchVsSplit n
  let teamAB := cmp.map fun g => (cleanEntityName g.1, cleanEntityName g.2)
  let teamFromMemory := findKnownTeam normalized memory
  let conceded := (matchShotsConceded n).orElse fun _ => matchConcededShotsBy n
  { last_n := lastN
    season := season
    team_a := teamAB.map Prod.fst
    team_b := teamAB.map Prod.snd
    team := teamFromMemory.orElse fun _ =>
      conceded.map fun t => ⟨jsTrim t.data⟩ }

/-!  ## Greeting stripping (source: `stripGreetingPreamble`) -/

def splitPunctGo (cur : List Char) : List Char → List (List Char)
  | [] => [cur.reverse]
  | c :: cs =>
    if c = '?' ∨ c = '!' ∨ c = '.' then cur.reverse :: splitPunctGo [] cs
    else splitPunctGo (c :: cur) cs

/-- `text.split(/[?!.]/)`. -/
def splitPunct (l : List Char) : List (List Char) := splitPunctGo [] l

/-- `/^(hi|hello|hey|how are you|how's it going|good morning|good afternoon|good evening|greetings|hi cora|hi kora)$/i`. -/
def isGreetingPart (p : List Char) : Bool :=
  ["hi", "hello", "hey", "how are you", "how\x27s it going", "good morning",
    "good afternoon", "good evening", "greetings", "hi cora", "hi kora"].any
    fun g => lowerStr p = lowerStr g.data

def stripGreetingPreamble (text : String) : String :=
  if text = "" then ""
  else
    let parts := ((splitPunct text.data).map jsTrim).filter fun p => !p.isEmpty
    let rest := parts.dropWhile isGreetingPart
    let joined := jsTrim (List.intercalate ". ".data rest)
    if joined.isEmpty then ⟨jsTrim text.data⟩ else ⟨joined⟩

/-!  ## Learned template cache (source: `addLearnedTemplate` and helpers) -/

/-- Signed 32-bit wrap-around (`| 0`). -/
def toInt32 (x : Int) : Int := ((x + 2 ^ 31) % 2 ^ 32) - 2 ^ 31

/-- `simpleHash`: `hash = (hash << 5) - hash + charCode; hash |= 0` folded over
the UTF-16 code units, then `Math.abs`. -/
def simpleHash (input : String) : Nat :=
  (input.data.foldl (fun h c => toInt32 (toInt32 (h * 32) - h + c.toNat)) 0).natAbs

/-- Characters that survive `slugify` (after lower-casing). -/
def isSlugChar (c : Char) : Bool := ('a' ≤ c ∧ c ≤ 'z') ∨ ('0' ≤ c ∧ c ≤ '9')

/-- `replace(/[^a-z0-9]+/g, "_")` on the lower-cased input. -/
def slugifyGo : Bool → List Char → List Char
  | _, [] => []
  | inRun, c :: cs =>
    if isSlugChar c then c :: slugifyGo false cs
    else if inRun then slugifyGo true cs
    else '_' :: slugifyGo true cs

/-- `slugify`: lower-case, squash non-alphanumeric runs to `_`, strip edge
underscores, keep at most 60 characters. -/
def slugify (input : String) : String :=
  let squashed := slugifyGo false (lowerStr input.data)
  let stripped :=
    ((squashed.dropWhile fun c => c = '_').reverse.dropWhile fun c => c = '_').reverse
  ⟨stripped.take 60⟩

/-- `buildIntentKeywords`: fixed vocabulary filtered by substring presence in
the normalised prompt key (the `Set` round-trip keeps first-insertion order,
and the vocabulary has no duplicates). -/
def buildIntentKeywords (prompt : String) : List String :=
  ["shot", "shots", "conceded", "pass", "passes", "heatmap", "pitch plot",
    "shot map", "pass map", "goal", "goals"].filter fun k =>
    containsSub k.data (normalizePromptKey prompt).data

/-- `Object.keys(params)` in the JS insertion order of
`extractParamsFromPrompt` (`last_n`, `season`, `team_a`, `team_b`, `team`). -/
def paramsKeys (p : QueryParams) : List String :=
  (if p.last_n.isSome then ["last_n"] else []) ++
    (if p.season.isSome then ["season"] else []) ++
    (if p.team_a.isSome then ["team_a"] else []) ++
    (if p.team_b.isSome then ["team_b"] else []) ++
    (if p.team.isSome then ["team"] else [])

/-- A learned template entry (`semantic.learned_templates[i]`). -/
structure LearnedTemplate where
  name : String
  chart_type : String
  query_template : String
  params : List String
  intent_keywords : List String
  source_prompt : String
deriving Repr, DecidableEq

/-- `addLearnedTemplate({chartType, query, sourcePrompt, memory})` as a pure
transform of the `learned_templates` list (the `semantic.json` state). -/
def addLearnedTemplate (chartType query sourcePrompt : String) (memory : Memory)
    (semantic : List LearnedTemplate) : List LearnedTemplate :=
  if chartType = "" ∨ query = "" ∨ sourcePrompt = "" then semantic
  else
    let params := extractParamsFromPrompt sourcePrompt memory
    let queryTemplate := buildQueryTemplate query params
    let reject := detectMultiTeamPrompt sourcePrompt &&
      (match queryTemplate with
        | some t => !(containsStr t "{{team_a}}" && containsStr t "{{team_b}}")
        | none => false)
    if reject then semantic
    else
      let keyBase := chartType ++ ":" ++ normalizePromptKey sourcePrompt ++ ":" ++
        queryTemplate.getD query
      let name := "learned_" ++ chartType ++ "_" ++ slugify sourcePrompt ++ "_" ++
        toString (simpleHash keyBase)
      if (semantic.any fun t => t.name = name) then semantic
      else
        let entry : LearnedTemplate :=
          { name := name, chart_type := chartType,
            query_template := queryTemplate.getD query,
            params := paramsKeys params,
            intent_keywords := buildIntentKeywords sourcePrompt,
            source_prompt := normalizePrompt sourcePrompt }
        semantic ++ [entry]

/-!  ## Query repair heuristics (source: `ensureSelectIncludes`,
`ensureTeamNameInQuery`, `enforceLastNLimit`) -/

/-- `String.prototype.indexOf` for a literal. -/
def indexOfSub (pat s : List Char) : Option Nat :=
  firstSome (s.length + 1) fun i =>
    if startsWithCS pat (s.drop i) then some i else none

/-- `String.prototype.lastIndexOf` for a literal. -/
def lastIndexOfSub (pat s : List Char) : Option Nat :=
  ((List.range (s.length + 1)).filter fun i => startsWithCS pat (s.drop i)).getLast?

/-- First match of `/select\s+(distinct\s+)?/i` in `l`; returns the length of
the matched text (`match[0].length`), which is all the caller uses. -/
def matchSelectRegexLen (l : List Char) : Option Nat :=
  firstSome (l.length + 1) fun p =>
    let r := l.drop p
    if startsWithCI "select".data r then
      let r1 := r.drop 6
      let sp := r1.takeWhile isJsSpace
      if sp.isEmpty then none
      else
        let r2 := r1.drop sp.length
        if startsWithCI "distinct".data r2 then
          let r3 := r2.drop 8
          let sp2 := r3.takeWhile isJsSpace
          if sp2.isEmpty then some (6 + sp.length)
          else some (6 + sp.length + 8 + sp2.length)
        else some (6 + sp.length)
    else none

/-- `ensureSelectIncludes(query, column)`: insert `column, ` after the select
keyword (the last `select` when the query starts with `with`), unless the
column name already occurs anywhere in the query. -/
def ensureSelectIncludes (query column : String) : String :=
  if query = "" ∨ column = "" then query
  else
    let lower := lowerStr query.data
    if containsSub (lowerStr column.data) lower then query
    else
      let base := indexOfSub "select".data lower
      let targetIndex :=
        if startsWithCS "with".data lower then
          (lastIndexOfSub "select".data lower).orElse fun _ => base
        else base
      match targetIndex with
      | none => query
      | some ti =>
        match matchSelectRegexLen (query.data.drop ti) with
        | none => query
        | some len =>
          let insertPos := ti + len
          ⟨query.data.take insertPos ++ column.data ++ ", ".data ++
            query.data.drop insertPos⟩

/-- `ensureTeamNameInQuery(query)`. -/
def ensureTeamNameInQuery (query : String) : String :=
  let lower := lowerStr query.data
  if !containsSub "team_name".data lower then
    if containsSub "from viz_match_events_with_match".data lower ||
        containsSub "from viz_match_events".data lower then
      ensureSelectIncludes query "team_name"
    else query
  else query

/-- `/(row_number\s*\()/` on the lower-cased query. -/
def hasRowNumberCall (lower : List Char) : Bool :=
  (List.range (lower.length + 1)).any fun i =>
    let r := lower.drop i
    startsWithCS "row_number".data r &&
      (match (r.drop 10).dropWhile isJsSpace with
        | '(' :: _ => true
        | _ => false)

/-- `enforceLastNLimit(query, prompt, seriesField)`: inject a per-partition
window limit for multi-team last-N prompts, otherwise append a plain
`limit N`. -/
def enforceLastNLimit (query prompt : String) (seriesField : Option String) :
    String :=
  if query = "" ∨ prompt = "" then query
  else
    let normalized := normalizePrompt prompt
    match matchLastNum ["shot", "passe", "event", "matche"] normalized.data with
    | none => query
    | some lastN =>
      if lastN = 0 then query
      else
        let lower := lowerStr query.data
        if containsSub " limit ".data lower then query
        else if hasRowNumberCall lower then query
        else
          let partitionField :=
            if seriesField = some "player_name" then "player_name" else "team_name"
          let windowResult :=
            if detectMultiTeamPrompt prompt then
              let limited0 :=
                if !containsSub partitionField.data lower then
                  ensureTeamNameInQuery query
                else query
              let limited1 :=
                if !containsSub "date_time".data lower then
                  ensureSelectIncludes limited0 "date_time"
                else limited0
              let limitedLower := lowerStr limited1.data
              if containsSub partitionField.data limitedLower &&
                  containsSub "date_time".data limitedLower then
                some ("with ranked as (" ++ limited1 ++
                  ") select * from (" ++
                  "select *, row_number() over (partition by " ++ partitionField ++
                  " order by date_time desc) as rn from ranked" ++
                  ") as limited where rn <= " ++ toString lastN)
              else none
            else none
          match windowResult with
          | some w => w
          | none => query ++ " limit " ++ toString lastN

/-- `parseLastShotsComparePrompt(text)`: a last-N-shots prompt that also
splits on `vs`/`versus`/`against`. -/
def parseLastShotsComparePrompt (text : String) :
    Option (String × String × Nat) :=
  let normalized := normalizePrompt text
  match matchLastNum ["shot"] normalized.data with
  | none => none
  | some limit =>
    match matchVsWordSplit normalized.data with
    | none => none
    | some (g1, g2) =>
      let left := cleanEntityName g1
      let right := cleanEntityName g2
      if left = "" ∨ right = "" then none
      else some (left, right, limit)

/-- The window query hand-built by the `parseLastShotsComparePrompt` handler
in `proxyChat` (a zero limit falls back to 100 through `Number(...) || 100`). -/
def buildLastShotsCompareQuery (teamA teamB : String) (limit : Nat) : String :=
  let safeA := escapeSqlQuotes teamA
  let safeB := escapeSqlQuotes teamB
  let lim := if limit = 0 then 100 else limit
  "with ranked as (" ++
    "select team_name, x, y, event_name, date_time, " ++
    "row_number() over (partition by team_name order by date_time desc) as rn " ++
    "from viz_match_events_with_match " ++
    "where event_name in ('Shoot','Shoot Location','Penalty') " ++
    "and (team_name ilike '%" ++ safeA ++ "%' or team_name ilike '%" ++ safeB ++
    "%')" ++ ") " ++
    "select team_name, x, y, event_name from ranked where rn <= " ++ toString lim

/-!  ## SQL rewrite-on-error (source: `rewriteSqlOnError`) and RPC gateway -/

/-- Generic left-to-right global regex replace: `try prev rest` reports a
match at the head of `rest` as `(consumed, replacement)`; `prev` is the last
original character before `rest` (for `\b`).  Fuel-structural so the kernel
can evaluate. -/
def replaceScanAux (t : Option Char → List Char → Option (Nat × List Char)) :
    Option Char → Nat → List Char → List Char
  | _, _, [] => []
  | _, 0, s => s
  | prev, fuel + 1, c :: cs =>
    match t prev (c :: cs) with
    | some (k, rep) =>
      if k = 0 then c :: replaceScanAux t (some c) fuel cs
      else rep ++ replaceScanAux t (((c :: cs).take k).getLast?) fuel ((c :: cs).drop k)
    | none => c :: replaceScanAux t (some c) fuel cs

def replaceScan (t : Option Char → List Char → Option (Nat × List Char))
    (s : List Char) : List Char :=
  replaceScanAux t none s.length s

/-- First position of `/\blimit\b/i`; `none` when absent. -/
def findWordLimit (s : List Char) : Option Nat :=
  firstSome (s.length + 1) fun i =>
    if litAtCI "limit".data s i && boundaryAt s i && boundaryAt s (i + 5) then
      some i
    else none

/-- `replace(/\blimit\b[\s\S]*$/i, "")`: truncate at the first word-bounded
`limit`. -/
def truncAtWordLimit (s : List Char) : List Char :=
  match findWordLimit s with
  | some i => s.take i
  | none => s

/-- `/,\s*fld\s*/gi` replaced by `", "`. -/
def replCommaFld (fld : String) (s : List Char) : List Char :=
  replaceScan
    (fun _ r =>
      match r with
      | ',' :: rest =>
        let sp := rest.takeWhile isJsSpace
        let r2 := rest.drop sp.length
        if startsWithCI fld.data r2 then
          let r3 := r2.drop fld.data.length
          let sp2 := r3.takeWhile isJsSpace
          some (1 + sp.length + fld.data.length + sp2.length, ", ".data)
        else none
      | _ => none)
    s

/-- `/fld\s*,\s*/gi` replaced by the empty string. -/
def replFldComma (fld : String) (s : List Char) : List Char :=
  replaceScan
    (fun _ r =>
      if startsWithCI fld.data r then
        let r1 := r.drop fld.data.length
        let sp := r1.takeWhile isJsSpace
        match r1.drop sp.length with
        | ',' :: rest2 =>
          let sp2 := rest2.takeWhile isJsSpace
          some (fld.data.length + sp.length + 1 + sp2.length, [])
        | _ => none
      else none)
    s

/-- `/fld\b/gi` replaced by the empty string (boundary only after). -/
def replFldWord (fld : String) (s : List Char) : List Char :=
  replaceScan
    (fun _ r =>
      if startsWithCI fld.data r && wordBoundaryAfter (r.drop fld.data.length) then
        some (fld.data.length, [])
      else none)
    s

/-- `rewriteSqlOnError(query, errorMsg)`. -/
def rewriteSqlOnError (query errorMsg : String) : String :=
  let lower := lowerStr errorMsg.data
  let r0 := query.data
  let r1 :=
    if containsSub "syntax error at or near \"limit\"".data lower then
      jsTrim (truncAtWordLimit r0) ++ " limit 5000".data
    else r0
  let r2 :=
    if containsSub "statement timeout".data lower then
      if (findWordLimit r1).isNone then r1 ++ " limit 5000".data else r1
    else r1
  let r3 :=
    if containsSub "column".data lower && containsSub "end_x".data lower then
      replFldWord "end_x" (replFldComma "end_x" (replCommaFld "end_x" r2))
    else r2
  let r4 :=
    if containsSub "column".data lower && containsSub "end_y".data lower then
      replFldWord "end_y" (replFldComma "end_y" (replCommaFld "end_y" r3))
    else r3
  ⟨jsTrim r4⟩

/-!  ## Schema snapshot and `validateColumnsInSql` -/

structure ColumnInfo where
  name : String
deriving Repr, DecidableEq

structure TableInfo where
  name : String
  columns : List ColumnInfo
deriving Repr, DecidableEq

structure Schema where
  tables : List TableInfo := []
deriving Repr, DecidableEq

def findTable (schema : Schema) (table : String) : Option TableInfo :=
  schema.tables.find? fun t => t.name = table

def getTableColumns (schema : Schema) (table : String) : List String :=
  match findTable schema table with
  | some entry => entry.columns.map fun col => col.name
  | none => []

/-- First match of `/from\s+([a-zA-Z0-9_]+)/i`: the captured table name. -/
def matchFromTable (s : List Char) : Option String :=
  firstSome (s.length + 1) fun i =>
    let r := s.drop i
    if startsWithCI "from".data r then
      let r1 := r.drop 4
      let sp := r1.takeWhile isJsSpace
      if sp.isEmpty then none
      else
        let r2 := r1.drop sp.length
        let ident := r2.takeWhile isWordChar
        if ident.isEmpty then none else some ⟨ident⟩
    else none

/-- First match of `/select\s+(.+?)\s+from/i`: the captured (lazy) select
list. -/
def matchSelectList (s : List Char) : Option String :=
  firstSome (s.length + 1) fun i =>
    let r := s.drop i
    if startsWithCI "select".data r then
      let r1 := r.drop 6
      let sp := r1.takeWhile isJsSpace
      if sp.isEmpty then none
      else
        let body := r1.drop sp.length
        firstSome (body.length + 1) fun j =>
          if j = 0 then none
          else
            let after := body.drop j
            let sp2 := after.takeWhile isJsSpace
            if !sp2.isEmpty && startsWithCI "from".data (after.drop sp2.length) &&
                dotOk (body.take j) then
              some ⟨body.take j⟩
            else none
    else none

/-- Split on `","`. -/
def splitCommaGo (cur : List Char) : List Char → List (List Char)
  | [] => [cur.reverse]
  | c :: cs =>
    if c = ',' then cur.reverse :: splitCommaGo [] cs
    else splitCommaGo (c :: cur) cs

/-- `part.replace(/\b(count|sum|avg|min|max)\s*\(|\)|\sas\s+.+$/gi, "")`. -/
def stripAggregateSyntax (part : List Char) : List Char :=
  replaceScan
    (fun prev r =>
      let aggAlt :=
        if (match prev with | some p => !isWordChar p | none => true) then
          ["count", "sum", "avg", "min", "max"].findSome? fun w =>
            if startsWithCI w.data r then
              let r1 := r.drop w.data.length
              let sp := r1.takeWhile isJsSpace
              match r1.drop sp.length with
              | '(' :: _ => some (w.data.length + sp.length + 1, ([] : List Char))
              | _ => none
            else none
        else none
      aggAlt.orElse fun _ =>
        match r with
        | ')' :: _ => some (1, [])
        | c :: rest =>
          if isJsSpace c && startsWithCI "as".data rest then
            let r1 := rest.drop 2
            let sp := r1.takeWhile isJsSpace
            if !sp.isEmpty && !(r1.drop sp.length).isEmpty && dotOk r then
              some (r.length, [])
            else none
          else none
        | [] => none)
    part

/-- `/\s+as\s+/i.test(part)`. -/
def hasAsAlias (part : List Char) : Bool :=
  (List.range (part.length + 1)).any fun i =>
    let r := part.drop i
    let sp := r.takeWhile isJsSpace
    !sp.isEmpty &&
      (let r1 := r.drop sp.length
      startsWithCI "as".data r1 &&
        !((r1.drop 2).takeWhile isJsSpace).isEmpty)

/-- `validateColumnsInSql(query, schema)`. -/
def validateColumnsInSql (query : String) (schema : Schema) : Bool :=
  match matchFromTable query.data with
  | none => true
  | some table =>
    match findTable schema table with
    | none => true
    | some _ =>
      let columns := getTableColumns schema table
      match matchSelectList query.data with
      | none => true
      | some selectPart =>
        let parts := (splitCommaGo [] selectPart.data).map jsTrim
        parts.all fun part =>
          let col := jsTrim (stripAggregateSyntax part)
          if col.isEmpty || col = ['*'] || col.any isDigitChar then true
          else if columns.contains (⟨col⟩ : String) then true
          else hasAsAlias part

/-!  ## Raw-SQL RPC operation (source: `runSqlRpc`)

The gateway is modelled by an oracle list of responses, one per issued POST;
`sent` records the queries actually posted, in order. -/

inductive RpcResp where
  | ok : RpcResp
  | err (msg : String) : RpcResp
deriving Repr, DecidableEq

instance : DecidableEq (Except String Unit) := fun a b =>
  match a, b with
  | .ok (), .ok () => isTrue rfl
  | .ok (), .error _ => isFalse fun h => by cases h
  | .error _, .ok () => isFalse fun h => by cases h
  | .error m, .error m2 =>
    if h : m = m2 then isTrue (by rw [h])
    else isFalse fun hh => by cases hh; exact h rfl

structure RpcRun where
  sent : List String
  result : Except String Unit
deriving Repr, DecidableEq

/-- `query.trim()` followed by `replace(/;+$/g, "")`. -/
def cleanRpcQuery (query : String) : String :=
  ⟨((jsTrim query.data).reverse.dropWhile fun c => c = ';').reverse⟩

def runSqlRpc (query : String) (schema : Schema) (oracle : List RpcResp)
    (attempts : Nat) : RpcRun :=
  if query = "" then ⟨[], .error "Query is required."⟩
  else
    let cleaned := cleanRpcQuery query
    if containsStr cleaned ";" then
      ⟨[], .error "Multiple statements are not allowed"⟩
    else if !validateColumnsInSql cleaned schema then
      ⟨[], .error "Query references unknown columns. Check schema."⟩
    else
      match oracle.head? with
      | none => ⟨[cleaned], .error "no gateway response"⟩
      | some .ok => ⟨[cleaned], .ok ()⟩
      | some (.err msg) =>
        match attempts with
        | 0 => ⟨[cleaned], .error (if msg = "" then "SQL RPC failed." else msg)⟩
        | a + 1 =>
          let rewritten := rewriteSqlOnError cleaned msg
          if rewritten ≠ "" ∧ rewritten ≠ cleaned then
            let sub := runSqlRpc rewritten schema oracle.tail a
            ⟨cleaned :: sub.sent, sub.result⟩
          else ⟨[cleaned], .error (if msg = "" then "SQL RPC failed." else msg)⟩

/-!  ## Block-map prompt and hand-assembled query (source:
`parseTeamBlockMapPrompt`, the block-map handler in `proxyChat`, and
`seasonLikePattern`) -/

/-- `blocks?` (greedy optional `s`). -/
def eatBlocks (l : List Char) : Option (List Char) :=
  (eatCI "blocks" l).orElse fun _ => eatCI "block" l

/-- `shots?` (greedy optional `s`). -/
def eatShots (l : List Char) : Option (List Char) :=
  (eatCI "shots" l).orElse fun _ => eatCI "shot" l

/-- `/blocks?\s+that\s+(.+?)\s+made/i`. -/
def matchBlocksThatMade (text : List Char) : Option String :=
  firstSome (text.length + 1) fun i =>
    ((eatBlocks (text.drop i)).bind eatSpaces1).bind fun r =>
      ((eatCI "that" r).bind eatSpaces1).bind fun rest =>
        firstSome (rest.length + 1) fun j =>
          if j = 0 then none
          else
            let after := rest.drop j
            let sp := after.takeWhile isJsSpace
            if !sp.isEmpty && startsWithCI "made".data (after.drop sp.length) &&
                dotOk (rest.take j) then
              some ⟨rest.take j⟩
            else none

/-- `/blocks?\s+by\s+(.+?)(?:\s+in\s+the\s+|\s+in\s+|\s+from\s+|$)/i`. -/
def matchBlocksBy (text : List Char) : Option String :=
  firstSome (text.length + 1) fun i =>
    ((eatBlocks (text.drop i)).bind eatSpaces1).bind fun r =>
      ((eatCI "by" r).bind eatSpaces1).bind fun rest =>
        firstSome (rest.length + 1) fun j =>
          if j = 0 then none
          else
            let after := rest.drop j
            let sp := after.takeWhile isJsSpace
            let stopWord : String → Bool := fun w =>
              !sp.isEmpty &&
                (match eatCI w (after.drop sp.length) with
                  | some r2 => !(r2.takeWhile isJsSpace).isEmpty
                  | none => false)
            if (stopWord "in" || stopWord "from" || after.isEmpty) &&
                dotOk (rest.take j) then
              some ⟨rest.take j⟩
            else none

/-- `/map\s+of\s+all\s+the\s+blocks?\s+that\s+(.+?)\s+made/i`. -/
def matchMapOfAllBlocks (text : List Char) : Option String :=
  firstSome (text.length + 1) fun i =>
    (((((eatCI "map" (text.drop i)).bind eatSpaces1).bind fun r =>
      (eatCI "of" r).bind eatSpaces1).bind fun r =>
      (eatCI "all" r).bind eatSpaces1).bind fun r =>
      ((eatCI "the" r).bind eatSpaces1).bind fun r =>
        ((eatBlocks r).bind eatSpaces1).bind fun r =>
          ((eatCI "that" r).bind eatSpaces1).bind fun rest =>
            firstSome (rest.length + 1) fun j =>
              if j = 0 then none
              else
                let after := rest.drop j
                let sp := after.takeWhile isJsSpace
                if !sp.isEmpty && startsWithCI "made".data (after.drop sp.length) &&
                    dotOk (rest.take j) then
                  some ⟨rest.take j⟩
                else none)

/-- `parseTeamBlockMapPrompt(text)`. -/
def parseTeamBlockMapPrompt (text : String) : Option (String × Option String) :=
  let normalized := normalizePrompt text
  let n := normalized.data
  if !containsSubCI "block".data n then none
  else if !(containsSubCI "shot map".data n || containsSubCI "pitch plot".data n ||
      containsSubCI "map".data n) then none
  else
    let teamMatch := ((matchBlocksThatMade n).orElse fun _ =>
      matchBlocksBy n).orElse fun _ => matchMapOfAllBlocks n
    match teamMatch with
    | none => none
    | some team => some (⟨jsTrim team.data⟩, (matchSeason n).map fun s => ⟨jsTrim s.data⟩)

/-- `seasonLikePattern(value)`. -/
def seasonLikePattern (value : String) : String :=
  let cleaned := value.data.filter isDigitChar
  if cleaned.isEmpty then ""
  else
    let first := cleaned.take 4
    let second := cleaned.drop 4
    if second.isEmpty then ⟨'%' :: (first ++ ['%'])⟩
    else ⟨'%' :: (first ++ '%' :: (second ++ ['%']))⟩

/-- The block-map query hand-assembled in `proxyChat` (lines building
`blockQuery`): the exact-name side is quote-escaped, the fuzzy side is the
raw `fuzzyLikePattern` of the team name. -/
def buildBlockMapQuery (team : String) (season : Option String) : String :=
  let safeTeam := escapeSqlQuotes team
  let fuzzyTeam := fuzzyLikePattern team
  "select x, y from viz_match_events_with_match " ++
    "where (team_name ilike '%" ++ safeTeam ++ "%' or team_name ilike '%" ++
    fuzzyTeam ++ "%') " ++
    (match season with
      | some s => "and season_name ilike '" ++ seasonLikePattern s ++ "' "
      | none => "") ++
    "and (event_name ilike '%block%' or category_name ilike '%block%') " ++
    "limit 5000"

/-- Number of occurrences of a character in a string. -/
def countChar (s : String) (c : Char) : Nat := s.data.count c

/-!  ## Completion-API call (source: `callOpenRouter`)

Each outbound request is wrapped in a 120s abort timeout; the oracle lists
one observed outcome per issued request.  `sentModels` records the model of
each request in order. -/

inductive ApiResp where
  | ok (r : Nat)
  | httpErr (status : Nat) (msg : String)
  | abortTimeout
  | netErr (msg : String)
deriving Repr, DecidableEq

instance {α : Type} [DecidableEq α] : DecidableEq (Except String α) := fun a b =>
  match a, b with
  | .ok x, .ok y =>
    if h : x = y then isTrue (by rw [h]) else isFalse fun hh => by cases hh; exact h rfl
  | .ok _, .error _ => isFalse fun h => by cases h
  | .error _, .ok _ => isFalse fun h => by cases h
  | .error m, .error m2 =>
    if h : m = m2 then isTrue (by rw [h]) else isFalse fun hh => by cases hh; exact h rfl

structure ApiRun where
  sentModels : List String
  result : Except String Nat
deriving Repr, DecidableEq

/-- The default fourth argument of `callOpenRouter`. -/
def defaultFallbackModel : String := "moonshotai/kimi-k2:free"

/-- `callOpenRouter(payload, apiKey, retries = 2, fallbackModel = default)`:

* a non-ok response with status ≥ 500 or 429 triggers a one-shot fallback to
  `fallbackModel` when set and different from the payload model (the fallback
  call itself gets `null` as its fallback); a failure of the fallback call is
  converted to an error carrying the first response's message;
* an abort (`error.name === "AbortError"`) is retried while `retries > 0`,
  decrementing `retries`; the omitted fourth argument of the retry call resets
  the fallback model to the default;
* any other error propagates. -/
def callOpenRouterGo (model : String) (oracle : List ApiResp) (retries : Nat)
    (fallbackModel : Option String) : Nat → ApiRun
  | 0 => ⟨[], .error "fuel exhausted"⟩
  | fuel + 1 =>
    match oracle.head? with
    | none => ⟨[model], .error "no response"⟩
    | some (.ok r) => ⟨[model], .ok r⟩
    | some (.httpErr status msg) =>
      if (500 ≤ status ∨ status = 429) ∧ fallbackModel ≠ none ∧
          fallbackModel ≠ some "" ∧ some model ≠ fallbackModel then
        let fb := fallbackModel.getD ""
        let sub := callOpenRouterGo fb oracle.tail retries none fuel
        match sub.result with
        | .ok r => ⟨model :: sub.sentModels, .ok r⟩
        | .error _ => ⟨model :: sub.sentModels, .error msg⟩
      else ⟨[model], .error msg⟩
    | some .abortTimeout =>
      match retries with
      | 0 => ⟨[model], .error "AbortError"⟩
      | r + 1 =>
        let sub := callOpenRouterGo model oracle.tail r (some defaultFallbackModel) fuel
        ⟨model :: sub.sentModels, sub.result⟩
    | some (.netErr msg) => ⟨[model], .error msg⟩

/-- Entry point: the fuel `2·retries + fallback + 1` strictly bounds the
recursion depth (each abort retry costs 2, a fallback switch costs 1), so the
fuel-exhausted branch is unreachable. -/
def callOpenRouter (model : String) (oracle : List ApiResp) (retries : Nat)
    (fallbackModel : Option String) : ApiRun :=
  callOpenRouterGo model oracle retries fallbackModel
    (2 * retries + (if fallbackModel.isSome then 1 else 0) + 1)

/-!  ## Tool-calling orchestrator loop (source: the `while` loop of
`proxyChat`)

A model turn is `Option (List String)`: `none` when the response carries no
`tool_calls` field, `some calls` otherwise (an empty array is truthy in JS,
so `some []` keeps the loop running).  `oracle k` is the response to the
`k`-th completion re-call inside the loop; `execImg call` tells whether
executing that call produced a chart image (`render_mplsoccer` with
`image_base64`), which ends the request immediately.  `remaining` is
`6 - safetyCounter`, so the source's guard `safetyCounter < 6` is
`remaining > 0`; the explicit decrement is also the loop's termination
argument. -/

def toolLoopGo (oracle : Nat → Option (List String)) (execImg : String → Bool)
    (isVisual : Bool) : Nat → Nat → Option (List String) → List (List String)
  | 0, _, _ => []
  | remaining + 1, respIdx, resp =>
    match resp with
    | none => []
    | some calls =>
      if calls.any execImg then [calls]
      else
        let next := oracle respIdx
        let noCalls := match next with | none => true | some l => l.isEmpty
        let resp2 := if noCalls && isVisual then oracle (respIdx + 1) else next
        let nextIdx := if noCalls && isVisual then respIdx + 2 else respIdx + 1
        calls :: toolLoopGo oracle execImg isVisual remaining nextIdx resp2

/-- The rounds of tool calls executed by one request's loop, given the
initial completion response. -/
def toolLoopRounds (oracle : Nat → Option (List String)) (execImg : String → Bool)
    (isVisual : Bool) (init : Option (List String)) : List (List String) :=
  toolLoopGo oracle execImg isVisual 6 0 init

/-- The sequential execution log: the outer `while` processes rounds in
order and the inner `for (const call of toolCalls)` appends each executed
call one at a time. -/
def execLog (rounds : List (List String)) : List String :=
  rounds.foldl (fun l calls => calls.foldl (fun l2 c => l2 ++ [c]) l) []

/-!  ## Pending-clarification state machine (source:
`handlePendingClarification`, `getPending`/`savePending`, and the
`needsScopeForVisual` pending creation in `proxyChat`) -/

/-- The `pending.json` document: a tagged union. -/
inductive Pending where
  | alias (key : String) (original : String)
  | scope (scopeKey : String) (original : String) (remaining : Nat)
      (asking : String)
deriving Repr, DecidableEq

/-- The non-null results of `handlePendingClarification`. -/
inductive ClarResult where
  | question (text : String)
  | resolved (text : String)
deriving Repr, DecidableEq

/-- Insert-or-replace for a JS object used as a map (assignment keeps the
existing key position, otherwise appends). -/
def upsertAssoc {β : Type} (l : List (String × β)) (k : String) (v : β) :
    List (String × β) :=
  if l.any fun kv => kv.1 = k then
    l.map fun kv => if kv.1 = k then (k, v) else kv
  else l ++ [(k, v)]

def lookupAssoc {β : Type} (l : List (String × β)) (k : String) : Option β :=
  (l.find? fun kv => kv.1 = k).map fun kv => kv.2

/-- `key.split(" and ")[0]`. -/
def beforeFirstAnd (key : String) : List Char :=
  match indexOfSub " and ".data key.data with
  | some i => key.data.take i
  | none => key.data

/-- `handlePendingClarification(lastQuestion)` as a pure transition on the
pending slot and the memory document.  Returns (result, pending, memory). -/
def handlePendingClarification (pending : Option Pending) (memory : Memory)
    (lastQuestion : String) : Option ClarResult × Option Pending × Memory :=
  match pending with
  | none => (none, none, memory)
  | some p =>
    let answer := normalizePrompt lastQuestion
    if answer = "" then (none, some p, memory)
    else if looksLikeNewQuestion answer then (none, none, memory)
    else
      match p with
      | .alias key original =>
        let cleanKey : String := ⟨jsTrim (beforeFirstAnd key)⟩
        let entry :=
          if containsStrCI answer "team" then AliasEntry.mk "team_name" cleanKey
          else if containsStrCI answer "nickname" || containsStrCI answer "nick" then
            AliasEntry.mk "player_nickname" cleanKey
          else if containsStrCI answer "player" || containsStrCI answer "name" then
            AliasEntry.mk "player_name" cleanKey
          else AliasEntry.mk "player_name" answer
        let memory2 := { memory with aliases := upsertAssoc memory.aliases cleanKey entry }
        (some (.resolved (resolveAlias original memory2)), none, memory2)
      | .scope scopeKey original remaining asking =>
        let entry := (lookupAssoc memory.scopes.clar scopeKey).getD {}
        let entry2 :=
          if containsStrCI asking "season" then { entry with season := some answer }
          else if containsStrCI asking "opponent" || containsStrCI asking "home" ||
              containsStrCI asking "away" then
            { entry with opponent := some answer }
          else entry
        let memory2 := { memory with scopes :=
          { memory.scopes with clar := upsertAssoc memory.scopes.clar scopeKey entry2 } }
        if remaining > 1 then
          (some (.question "Any opponent or home/away filter? (e.g., vs Pyramids, home, away)"),
            some (.scope scopeKey original (remaining - 1)
              "Any opponent or home/away filter?"),
            memory2)
        else (some (.resolved original), none, memory2)

def lowerString (s : String) : String := ⟨lowerStr s.data⟩

/-- `lit(.+?) and (.+?)$` after a literal prefix (the
`show a … comparing X and Y` parsers). -/
def matchCompareAfter (lit : String) (text : List Char) :
    Option (String × String) :=
  firstSome (text.length + 1) fun i =>
    if startsWithCI lit.data (text.drop i) then
      let rest := text.drop (i + lit.data.length)
      firstSome (rest.length + 1) fun j =>
        if j = 0 then none
        else if startsWithCI " and ".data (rest.drop j) then
          let g2 := rest.drop (j + 5)
          if !g2.isEmpty && dotOk (rest.take j) && dotOk g2 then
            some (⟨rest.take j⟩, ⟨g2⟩)
          else none
        else none
    else none

/-- `/show a shot map comparing (.+?) and (.+?)$/i`. -/
def parseShotMapComparePrompt (text : String) : Option (String × String) :=
  (matchCompareAfter "show a shot map comparing " (normalizePrompt text).data).map
    fun g => (⟨jsTrim g.1.data⟩, ⟨jsTrim g.2.data⟩)

/-- `/show a heatmap comparing (.+?) and (.+?)$/i`. -/
def parseHeatmapComparePrompt (text : String) : Option (String × String) :=
  (matchCompareAfter "show a heatmap comparing " (normalizePrompt text).data).map
    fun g => (⟨jsTrim g.1.data⟩, ⟨jsTrim g.2.data⟩)

/-- `/show a pass map comparing (.+?) and (.+?)$/i`. -/
def parsePassMapComparePrompt (text : String) : Option (String × String) :=
  (matchCompareAfter "show a pass map comparing " (normalizePrompt text).data).map
    fun g => (⟨jsTrim g.1.data⟩, ⟨jsTrim g.2.data⟩)

/-- `parseShotsComparePrompt(text)`: `/shots?/` plus the between/vs split,
entity cleaning, and a `match`-specific flag. -/
def parseShotsComparePrompt (text : String) :
    Option (String × String × Bool) :=
  let normalized := normalizePrompt text
  let n := normalized.data
  if !containsSubCI "shot".data n then none
  else
    match (matchBetweenAnd n).orElse fun _ => matchVsSplit n with
    | none => none
    | some (g1, g2) =>
      let teamA := cleanEntityName g1
      let teamB := cleanEntityName g2
      if teamA = "" ∨ teamB = "" then none
      else some (teamA, teamB, containsSubCI "match".data n)

/-- `parseBlockedShotsPlayersPrompt(text)`: three keyword tests. -/
def parseBlockedShotsPlayersPrompt (text : String) : Bool :=
  let n := (normalizePrompt text).data
  containsSubCI "block".data n && containsSubCI "shot".data n &&
    (containsSubCI "who".data n || containsSubCI "which players".data n ||
      containsSubCI "players".data n)

/-- `(?:\s+for|\s+of)?` (optional, alternatives in order, greedy). -/
def eatOptForOf (l : List Char) : List Char :=
  match (eatSpaces1 l).bind fun r => eatCI "for" r with
  | some r => r
  | none =>
    match (eatSpaces1 l).bind fun r => eatCI "of" r with
    | some r => r
    | none => l

/-- `/shot map(?:\s+for|\s+of)?\s+(.+?)\s+in\s+(?:a\s+)?random match/i`. -/
def matchShotMapRandom (text : List Char) : Option String :=
  firstSome (text.length + 1) fun i =>
    if startsWithCI "shot map".data (text.drop i) then
      let r0 := eatOptForOf ((text.drop i).drop 8)
      (eatSpaces1 r0).bind fun rest =>
        firstSome (rest.length + 1) fun j =>
          if j = 0 then none
          else
            let after := rest.drop j
            let hit := ((eatSpaces1 after).bind fun r =>
              ((eatCI "in" r).bind eatSpaces1).bind fun r2 =>
                match (eatCI "a" r2).bind eatSpaces1 with
                | some r3 => eatCI "random match" r3
                | none => eatCI "random match" r2)
            if hit.isSome && dotOk (rest.take j) then some ⟨rest.take j⟩ else none
    else none

/-- `/(?:season|from)\s+(\d{4}\/\d{4})/i`. -/
def matchSeasonAfterWord (text : List Char) : Option String :=
  firstSome (text.length + 1) fun i =>
    let r := text.drop i
    let afterWord :=
      match (eatCI "season" r).bind eatSpaces1 with
      | some r2 => some r2
      | none => (eatCI "from" r).bind eatSpaces1
    match afterWord with
    | none => none
    | some r2 =>
      match r2 with
      | a :: b :: c :: d :: '/' :: e :: f :: g :: h :: _ =>
        if isDigitChar a && isDigitChar b && isDigitChar c && isDigitChar d &&
            isDigitChar e && isDigitChar f && isDigitChar g && isDigitChar h then
          some ⟨[a, b, c, d, '/', e, f, g, h]⟩
        else none
      | _ => none

/-- `parseRandomShotMapPrompt(text)`. -/
def parseRandomShotMapPrompt (text : String) :
    Option (String × Option String) :=
  let normalized := normalizePrompt text
  let n := normalized.data
  if !containsSubCI "shot map".data n then none
  else if !containsSubCI "random match".data n then none
  else
    match matchShotMapRandom n with
    | none => none
    | some team => some (⟨jsTrim team.data⟩,
        (matchSeasonAfterWord n).map fun s => ⟨jsTrim s.data⟩)

/-- `/carries?\s+that\s+(.+?)\s+made/i` and
`/carries?\s+by\s+(.+?)(?:\s+in\s+the\s+|\s+in\s+|\s+from\s+|$)/i`. -/
def eatCarries (l : List Char) : Option (List Char) :=
  (eatCI "carries" l).orElse fun _ => eatCI "carry" l

def matchCarriesThatMade (text : List Char) : Option String :=
  firstSome (text.length + 1) fun i =>
    ((eatCarries (text.drop i)).bind eatSpaces1).bind fun r =>
      ((eatCI "that" r).bind eatSpaces1).bind fun rest =>
        firstSome (rest.length + 1) fun j =>
          if j = 0 then none
          else
            let after := rest.drop j
            let sp := after.takeWhile isJsSpace
            if !sp.isEmpty && startsWithCI "made".data (after.drop sp.length) &&
                dotOk (rest.take j) then
              some ⟨rest.take j⟩
            else none

def matchCarriesBy (text : List Char) : Option String :=
  firstSome (text.length + 1) fun i =>
    ((eatCarries (text.drop i)).bind eatSpaces1).bind fun r =>
      ((eatCI "by" r).bind eatSpaces1).bind fun rest =>
        firstSome (rest.length + 1) fun j =>
          if j = 0 then none
          else
            let after := rest.drop j
            let sp := after.takeWhile isJsSpace
            let stopWord : String → Bool := fun w =>
              !sp.isEmpty &&
                (match eatCI w (after.drop sp.length) with
                  | some r2 => !(r2.takeWhile isJsSpace).isEmpty
                  | none => false)
            if (stopWord "in" || stopWord "from" || after.isEmpty) &&
                dotOk (rest.take j) then
              some ⟨rest.take j⟩
            else none

/-- `parseCarryMapPrompt(text)`. -/
def parseCarryMapPrompt (text : String) : Option (String × Option String) :=
  let normalized := normalizePrompt text
  let n := normalized.data
  if !(containsSubCI "carry".data n || containsSubCI "carries".data n) then none
  else if !(containsSubCI "shot map".data n || containsSubCI "pitch plot".data n ||
      containsSubCI "map".data n) then none
  else
    match (matchCarriesThatMade n).orElse fun _ => matchCarriesBy n with
    | none => none
    | some player => some (⟨jsTrim player.data⟩,
        (matchSeason n).map fun s => ⟨jsTrim s.data⟩)

/-- `/random match for (.+?) and draw (?:me )?all of their successful passes/i`
(and the `shots` variant). -/
def matchRandomMatchDraw (what : String) (text : List Char) : Option String :=
  firstSome (text.length + 1) fun i =>
    if startsWithCI "random match for ".data (text.drop i) then
      let rest := (text.drop i).drop 17
      firstSome (rest.length + 1) fun j =>
        if j = 0 then none
        else
          let after := rest.drop j
          let hit :=
            match eatCI " and draw " after with
            | some r =>
              (match eatCI "me " r with
                | some r2 => eatCI ("all of their " ++ what) r2
                | none => eatCI ("all of their " ++ what) r)
            | none => none
          if hit.isSome && dotOk (rest.take j) then some ⟨rest.take j⟩ else none
    else none

def parseRandomMatchPassesPrompt (text : String) : Option String :=
  (matchRandomMatchDraw "successful passes" (normalizePrompt text).data).map
    fun t => ⟨jsTrim t.data⟩

def parseRandomMatchShotsPrompt (text : String) : Option String :=
  (matchRandomMatchDraw "shots" (normalizePrompt text).data).map
    fun t => ⟨jsTrim t.data⟩

/-- `parseOrientation(text)`. -/
def parseOrientation (text : String) : String :=
  if containsStrCI text "vertical" then "vertical"
  else if containsStrCI text "horizontal" then "horizontal"
  else "horizontal"

/-- `parseHalfPitch(text)`: `/(half[-\s]?pitch|half pitch|half)/i` — the bare
`half` alternative makes this a plain substring test. -/
def parseHalfPitch (text : String) : Bool := containsStrCI text "half"

/-- `lit(?:for|of) (.+?)$`-style player parsers. -/
def matchPlayerAfter (lit : String) (text : List Char) : Option String :=
  firstSome (text.length + 1) fun i =>
    let r := text.drop i
    let rest :=
      if startsWithCI (lit ++ "for ").data r then
        some (r.drop (lit.length + 4))
      else if startsWithCI (lit ++ "of ").data r then
        some (r.drop (lit.length + 3))
      else none
    match rest with
    | some g => if !g.isEmpty && dotOk g then some ⟨g⟩ else none
    | none => none

/-- `/shot map (?:for|of) (.+?)$/i`. -/
def parseShotMapPlayerPrompt (text : String) : Option String :=
  (matchPlayerAfter "shot map " (normalizePrompt text).data).map
    fun p => ⟨jsTrim p.data⟩

/-- `/pass map (?:for|of) (.+?)$/i`. -/
def parsePassMapPlayerPrompt (text : String) : Option String :=
  (matchPlayerAfter "pass map " (normalizePrompt text).data).map
    fun p => ⟨jsTrim p.data⟩

/-- `/heatmap (?:for|of) (.+?)$/i`. -/
def parseHeatmapPlayerPrompt (text : String) : Option String :=
  (matchPlayerAfter "heatmap " (normalizePrompt text).data).map
    fun p => ⟨jsTrim p.data⟩

/-- Does `pat` occur with a word boundary immediately after it (`pat\b`)? -/
def containsWithBoundaryAfter (pat : String) (s : List Char) : Bool :=
  (List.range (s.length + 1)).any fun i =>
    litAtCI pat.data s i && boundaryAt s (i + pat.data.length)

/-- First fully word-bounded occurrence of `w` (`\bw\b`), as a position. -/
def findWordCI (w : String) (s : List Char) : Option Nat :=
  firstSome (s.length + 1) fun i =>
    if litAtCI w.data s i && boundaryAt s i && boundaryAt s (i + w.data.length) then
      some i
    else none

/-- `replace(/\b(team)\b/i, "")` (first occurrence only). -/
def removeWordTeam (s : List Char) : List Char :=
  match findWordCI "team" s with
  | some i => s.take i ++ s.drop (i + 4)
  | none => s

/-- `replace(/\b(shots?)\b.*$/i, "")`: truncate at a word-bounded
`shot`/`shots` (greedy `s?` first). -/
def truncAtWordShots (s : List Char) : List Char :=
  match
    firstSome (s.length + 1) fun i =>
      if boundaryAt s i && litAtCI "shots".data s i && boundaryAt s (i + 5) then
        some i
      else if boundaryAt s i && litAtCI "shot".data s i && boundaryAt s (i + 4) then
        some i
      else none
  with
  | some i => s.take i
  | none => s

/-- `replace(/\b(in|from)\b.*\b(season|random match)\b.*$/i, "")`. -/
def truncAtInFromSeason (s : List Char) : List Char :=
  match
    firstSome (s.length + 1) fun i =>
      let startHit :=
        (boundaryAt s i && litAtCI "in".data s i && boundaryAt s (i + 2)) ||
          (boundaryAt s i && litAtCI "from".data s i && boundaryAt s (i + 4))
      if startHit then
        let later := (List.range (s.length + 1)).any fun j =>
          i + 2 ≤ j &&
            ((boundaryAt s j && litAtCI "season".data s j && boundaryAt s (j + 6)) ||
              (boundaryAt s j && litAtCI "random match".data s j &&
                boundaryAt s (j + 12)))
        if later then some i else none
      else none
  with
  | some i => s.take i
  | none => s

/-- `/shot map(?:\s+for|\s+of)?\s+(.+?)$/i` capture. -/
def matchShotMapTail (text : List Char) : Option String :=
  firstSome (text.length + 1) fun i =>
    if startsWithCI "shot map".data (text.drop i) then
      let r0 := eatOptForOf ((text.drop i).drop 8)
      (eatSpaces1 r0).bind fun g =>
        if !g.isEmpty && dotOk g then some ⟨g⟩ else none
    else none

/-- `parseShotMapTeamPrompt(text)`. -/
def parseShotMapTeamPrompt (text : String) :
    Option (String × String × Bool) :=
  let normalized := normalizePrompt text
  let n := normalized.data
  if !containsSubCI "shot map".data n then none
  else if containsSubCI "comparing".data n || containsSubCI "between".data n ||
      containsWithBoundaryAfter "vs" n || containsWithBoundaryAfter "against" n then
    none
  else
    match matchShotMapTail n with
    | none => none
    | some g =>
      let t0 := jsTrim g.data
      let t1 := jsTrim (removeWordTeam t0)
      let t2 := jsTrim (truncAtWordShots t1)
      let t3 := jsTrim (truncAtInFromSeason t2)
      if t3.isEmpty then none
      else some (⟨t3⟩, parseOrientation text, parseHalfPitch text)

/-- `(?:\s+of|\s+for)?` (optional, `of` first). -/
def eatOptOfFor (l : List Char) : List Char :=
  match (eatSpaces1 l).bind fun r => eatCI "of" r with
  | some r => r
  | none =>
    match (eatSpaces1 l).bind fun r => eatCI "for" r with
    | some r => r
    | none => l

/-- `replace(/\b(successful\s+passes?|passes?|shots?)\b.*$/i, "")`. -/
def truncAtPitchPlotNoise (s : List Char) : List Char :=
  match
    firstSome (s.length + 1) fun i =>
      if !boundaryAt s i then none
      else
        let r := s.drop i
        let alt1 :=
          ((eatCI "successful" r).bind eatSpaces1).bind fun r2 =>
            match eatCI "passes" r2 with
            | some r3 => some (r.length - r3.length)
            | none => (eatCI "passe" r2).map fun r3 => r.length - r3.length
        let alt2 :=
          match eatCI "passes" r with
          | some r3 => some (r.length - r3.length)
          | none => (eatCI "passe" r).map fun r3 => r.length - r3.length
        let alt3 :=
          match eatCI "shots" r with
          | some r3 => some (r.length - r3.length)
          | none => (eatCI "shot" r).map fun r3 => r.length - r3.length
        match (alt1.orElse fun _ => alt2).orElse fun _ => alt3 with
        | some len => if boundaryAt s (i + len) then some i else none
        | none => none
  with
  | some i => s.take i
  | none => s

/-- `parsePitchPlotTeamPrompt(text)`. -/
def parsePitchPlotTeamPrompt (text : String) :
    Option (String × String × String × Bool) :=
  let normalized := normalizePrompt text
  let n := normalized.data
  if !containsSubCI "pitch plot".data n then none
  else
    let tail := firstSome (n.length + 1) fun i =>
      if startsWithCI "pitch plot".data (n.drop i) then
        let r0 := eatOptOfFor ((n.drop i).drop 10)
        (eatSpaces1 r0).bind fun g =>
          if !g.isEmpty && dotOk g then some ⟨g⟩ else (none : Option String)
      else none
    match tail with
    | none => none
    | some g =>
      let t0 := jsTrim g.data
      let t1 := jsTrim (removeWordTeam t0)
      let t2 := jsTrim (truncAtPitchPlotNoise t1)
      if t2.isEmpty then none
      else
        let kind := if containsSubCI "pass".data n then "pass"
          else if containsSubCI "shot".data n then "shot" else "pass"
        some (⟨t2⟩, kind, parseOrientation text, parseHalfPitch text)

/-- `/pizza chart.*?for\s+(.+?)(?:\s+with|$)/i`. -/
def parsePizzaPrompt (text : String) : Option String :=
  let n := (normalizePrompt text).data
  let res : Option String := firstSome (n.length + 1) fun i =>
    if startsWithCI "pizza chart".data (n.drop i) then
      let after := (n.drop i).drop 11
      firstSome (after.length + 1) fun k =>
        if startsWithCI "for".data (after.drop k) && dotOk (after.take k) then
          (eatSpaces1 ((after.drop k).drop 3)).bind fun rest =>
            firstSome (rest.length + 1) fun j =>
              if j = 0 then none
              else
                let tail := rest.drop j
                let sp := tail.takeWhile isJsSpace
                let stop :=
                  (!sp.isEmpty && startsWithCI "with".data (tail.drop sp.length)) ||
                    tail.isEmpty
                if stop && dotOk (rest.take j) then some ⟨rest.take j⟩ else none
        else none
    else none
  res.map fun p => ⟨jsTrim p.data⟩

/-- `/radar chart.*?(.+?)\s+vs\s+(.+?)(?:\s+|$)/i`: after `radar chart` the
two lazy groups and the lazy gap make group 1 run to the first
space-delimited `vs` and group 2 the shortest nonempty run ending at
whitespace or the end. -/
def parseRadarPrompt (text : String) : Option (String × String) :=
  let n := (normalizePrompt text).data
  let res : Option (String × String) := firstSome (n.length + 1) fun i =>
    if startsWithCI "radar chart".data (n.drop i) then
      let rest := (n.drop i).drop 11
      firstSome (rest.length + 1) fun j =>
        if j = 0 then none
        else
          let after := rest.drop j
          ((eatSpaces1 after).bind fun r =>
            ((eatCI "vs" r).bind eatSpaces1).bind fun r2 =>
              if r2.isEmpty then none
              else
                let g2 :=
                  match firstSome (r2.length + 1) fun m =>
                    if m = 0 then none
                    else if m = r2.length ∨
                        isJsSpace ((r2.drop m).headD ' ') then some m
                    else none
                  with
                  | some m => r2.take m
                  | none => r2
                if dotOk (rest.take j) && dotOk g2 then
                  some (⟨rest.take j⟩, (⟨g2⟩ : String))
                else none)
    else none
  res.map fun g =>
    let left := jsTrim (applyAnchored (fun l => (eatCI "comparing" l).bind eatSpaces1) g.1.data)
    (⟨left⟩, ⟨jsTrim g.2.data⟩)

/-- `/top\s+(\d+)/i`. -/
def matchTopN (n : List Char) : Option Nat :=
  firstSome (n.length + 1) fun i =>
    ((eatCI "top" (n.drop i)).bind eatSpaces1).bind fun r =>
      let ds := r.takeWhile isDigitChar
      if ds.isEmpty then none else some (digitsToNat ds)

/-- `/last\s+(\d+)\s+seasons/i`. -/
def matchLastSeasons (n : List Char) : Option Nat :=
  firstSome (n.length + 1) fun i =>
    ((eatCI "last" (n.drop i)).bind eatSpaces1).bind fun r =>
      let ds := r.takeWhile isDigitChar
      if ds.isEmpty then none
      else
        (eatSpaces1 (r.drop ds.length)).bind fun r2 =>
          if startsWithCI "seasons".data r2 then some (digitsToNat ds) else none

/-- `parseBumpyPrompt(text)`. -/
def parseBumpyPrompt (text : String) : Option (Nat × Nat) :=
  let n := (normalizePrompt text).data
  if !containsSubCI "bumpy chart".data n then none
  else some ((matchTopN n).getD 5, (matchLastSeasons n).getD 3)

/-- `/how many goals did (.+?) concede in the (\d{4}\/\d{4}) season/i`. -/
def parseGoalsConcededPrompt (text : String) : Option (String × String) :=
  let n := (normalizePrompt text).data
  let res : Option (String × String) := firstSome (n.length + 1) fun i =>
    if startsWithCI "how many goals did ".data (n.drop i) then
      let rest := (n.drop i).drop 19
      firstSome (rest.length + 1) fun j =>
        if j = 0 then none
        else
          let after := rest.drop j
          if startsWithCI " concede in the ".data after then
            let sea := after.drop 16
            match sea with
            | a :: b :: c :: d :: '/' :: e :: f :: g :: h :: tl =>
              if isDigitChar a && isDigitChar b && isDigitChar c && isDigitChar d &&
                  isDigitChar e && isDigitChar f && isDigitChar g && isDigitChar h &&
                  startsWithCI " season".data tl && dotOk (rest.take j) then
                some (⟨rest.take j⟩, (⟨[a, b, c, d, '/', e, f, g, h]⟩ : String))
              else none
            | _ => none
          else none
    else none
  res.map fun g => (⟨jsTrim g.1.data⟩, ⟨jsTrim g.2.data⟩)

/-!  ## The `proxyChat` dispatch chain -/

/-- A chat message (`{role, content}`). -/
structure ChatMsg where
  role : String
  content : String
deriving Repr, DecidableEq

/-- `getLastUserMessage(messages)`. -/
def getLastUserMessage (messages : List ChatMsg) : String :=
  match messages.reverse.find? fun m => m.role = "user" with
  | some m => m.content
  | none => ""

/-- `isLearnedTemplateCompatible(prompt, template, memory)`.  Stored learned
templates always carry `query_template`, so the `template.query` fallback of
the source is not reachable here. -/
def isLearnedTemplateCompatible (prompt : String) (template : LearnedTemplate)
    (memory : Memory) : Bool :=
  if !detectMultiTeamPrompt prompt then true
  else
    let queryText := lowerString template.query_template
    let params := extractParamsFromPrompt prompt memory
    if containsStr queryText "{{team_a}}" || containsStr queryText "{{team_b}}" then
      true
    else
      match truthyStr params.team_a, truthyStr params.team_b with
      | some a, some b =>
        containsStr queryText (lowerString a) &&
          containsStr queryText (lowerString b)
      | _, _ => false

/-- `params[p] == null` for the parameter keys a learned template can list. -/
def paramIsNull (p : QueryParams) : String → Bool
  | "team_a" => p.team_a.isNone
  | "team_b" => p.team_b.isNone
  | "team" => p.team.isNone
  | "season" => p.season.isNone
  | "last_n" => p.last_n.isNone
  | _ => true

/-- `/(?:for|of) ([^,]+)$/i` of `extractEntityCandidate`. -/
def matchForOfTail (n : List Char) : Option String :=
  firstSome (n.length + 1) fun i =>
    let r := n.drop i
    let rest :=
      if startsWithCI "for ".data r then some (r.drop 4)
      else if startsWithCI "of ".data r then some (r.drop 3)
      else none
    match rest with
    | some g =>
      if !g.isEmpty && (g.all fun c => c ≠ ',') then some (⟨g⟩ : String)
      else none
    | none => none

/-- `/(?:player|team) ([^,]+)$/i` of `extractEntityCandidate`. -/
def matchNamedTail (n : List Char) : Option String :=
  firstSome (n.length + 1) fun i =>
    let r := n.drop i
    let rest :=
      if startsWithCI "player ".data r then some (r.drop 7)
      else if startsWithCI "team ".data r then some (r.drop 5)
      else none
    match rest with
    | some g =>
      if !g.isEmpty && (g.all fun c => c ≠ ',') then some (⟨g⟩ : String)
      else none
    | none => none

def isUpperAZ (c : Char) : Bool := 'A' ≤ c ∧ c ≤ 'Z'

def isLowerAZ (c : Char) : Bool := 'a' ≤ c ∧ c ≤ 'z'

/-- `[A-Z][a-z]+` at the head of the list: the word and the remainder. -/
def eatCapWord : List Char → Option (List Char × List Char)
  | [] => none
  | c :: cs =>
    if isUpperAZ c then
      let lows := cs.takeWhile isLowerAZ
      if lows.isEmpty then none else some (c :: lows, cs.drop lows.length)
    else none

/-- `/([A-Z][a-z]+\s+[A-Z][a-z]+(?:\s+[A-Z][a-z]+)?)/` (case-sensitive). -/
def matchCapName (n : List Char) : Option String :=
  firstSome (n.length + 1) fun i =>
    (eatCapWord (n.drop i)).bind fun w1 =>
      let sp1 := w1.2.takeWhile isJsSpace
      if sp1.isEmpty then none
      else
        (eatCapWord (w1.2.drop sp1.length)).map fun w2 =>
          let base := w1.1 ++ sp1 ++ w2.1
          let sp2 := w2.2.takeWhile isJsSpace
          if sp2.isEmpty then (⟨base⟩ : String)
          else
            match eatCapWord (w2.2.drop sp2.length) with
            | some w3 => ⟨base ++ sp2 ++ w3.1⟩
            | none => ⟨base⟩

/-- `extractEntityCandidate(text)`. -/
def extractEntityCandidate (text : String) : Option String :=
  let normalized := normalizePrompt text
  let n := normalized.data
  if containsSubCI "color".data n || containsSubCI "different color".data n ||
      containsSubCI "visual".data n || containsSubCI "chart".data n ||
      containsSubCI "plot".data n || containsSubCI "heatmap".data n ||
      containsSubCI "shot map".data n || containsSubCI "pass map".data n then
    none
  else if containsSubCI "did he".data n || containsSubCI "did she".data n ||
      containsSubCI "did they".data n || containsSubCI "did him".data n ||
      containsSubCI "did her".data n || containsSubCI "did them".data n ||
      containsSubCI "how many errors".data n ||
      containsSubCI "how many blocks".data n ||
      containsSubCI "how many".data n ||
      containsSubCI "errors did he".data n ||
      containsSubCI "blocks did he".data n then
    none
  else
    match matchForOfTail n with
    | some raw =>
      let r0 := jsTrim raw.data
      let r1 := if r0.getLast? = some ')' then r0.dropLast else r0
      some ⟨jsTrim (beforeFirstAnd ⟨r1⟩)⟩
    | none =>
      if (matchCompareAfter "between " n).isSome then none
      else
        match matchNamedTail n with
        | some g => some ⟨jsTrim g.data⟩
        | none =>
          match matchCapName n with
          | some g => some ⟨jsTrim g.data⟩
          | none => none

/-- A row of the `players` REST lookup (`select=id,name`). -/
structure Player where
  id : Nat
  name : String
deriving Repr, DecidableEq

/-- The `for (const term of searchTerms)` lookup loop of
`answerGoalsQuestion`: a non-ok players response aborts the whole function
(`.error`), the first term with a first row wins. -/
def findPlayerLoop (api : String → Except Unit (List Player)) :
    List String → Except Unit (Option Player)
  | [] => .ok none
  | t :: ts =>
    match api t with
    | .error e => .error e
    | .ok players =>
      match players.head? with
      | some p => .ok (some p)
      | none => findPlayerLoop api ts

/-- `/how many goals did (.+?) score\??/i`: the lazy group runs to the first
` score`. -/
def matchGoalsDid (text : List Char) : Option String :=
  firstSome (text.length + 1) fun i =>
    if startsWithCI "how many goals did ".data (text.drop i) then
      let rest := (text.drop i).drop 19
      firstSome (rest.length + 1) fun j =>
        if j = 0 then none
        else if startsWithCI " score".data (rest.drop j) && dotOk (rest.take j) then
          some (⟨rest.take j⟩ : String)
        else none
    else none

/-- `contentRange.split("/").pop()`. -/
def afterLastSlash (s : List Char) : List Char :=
  (s.reverse.takeWhile fun c => c ≠ '/').reverse

/-- `Number(s)` restricted to the shapes a `content-range` count can take:
a (possibly padded) digit run, the empty string (`Number("") = 0`), or a
non-numeric token such as `*` (`NaN`, i.e. `none`). -/
def jsNumberNat (s : String) : Option Nat :=
  let t := jsTrim s.data
  if t.isEmpty then some 0
  else if t.all isDigitChar then some (digitsToNat t)
  else none

/-- `answerGoalsQuestion(question, env)`.  The two REST round trips are
oracles: `playersApi term` is the parsed `players` response for one search
term (`.error` = non-2xx), `countApi id` is the `content-range` header of
the count request for a player id (`none` = non-2xx). -/
def answerGoalsQuestion (question : String)
    (playersApi : String → Except Unit (List Player))
    (countApi : Nat → Option String) : Option String :=
  match matchGoalsDid question.data with
  | none => none
  | some m =>
    let playerQuery : String := ⟨jsTrim m.data⟩
    if playerQuery = "" then none
    else
      let tokens := splitWs playerQuery
      let searchTerms :=
        if tokens.length > 1 then
          [playerQuery, (⟨tokens.headD []⟩ : String),
            (⟨tokens.getLastD []⟩ : String)]
        else [playerQuery]
      match findPlayerLoop playersApi searchTerms with
      | .error _ => none
      | .ok none =>
        some ("I couldn\x27t find a player matching \"" ++ playerQuery ++
          "\" in the database.")
      | .ok (some player) =>
        match countApi player.id with
        | none => none
        | some contentRange =>
          match jsNumberNat ⟨afterLastSlash contentRange.data⟩ with
          | none => none
          | some count =>
            some (player.name ++ " has scored " ++ toString count ++
              " goals in the database.")

/-- `/average number of successful passes per match between (.+?) and (.+?)\??/i`:
the second lazy group is followed only by an optional `?`, so it matches a
single character. -/
def matchPassCompare (text : List Char) : Option (String × String) :=
  let lit := "average number of successful passes per match between ".data
  firstSome (text.length + 1) fun i =>
    if startsWithCI lit (text.drop i) then
      let rest := (text.drop i).drop lit.length
      firstSome (rest.length + 1) fun j =>
        if j = 0 then none
        else if startsWithCI " and ".data (rest.drop j) && dotOk (rest.take j) then
          let g2 := rest.drop (j + 5)
          if !g2.isEmpty && dotOk (g2.take 1) then
            some ((⟨rest.take j⟩ : String), (⟨g2.take 1⟩ : String))
          else none
        else none
    else none

/-- `answerPassComparison(question, env)`: the SQL round trip and row
formatting after a successful match are abstracted by `passOracle`, which
maps the two trimmed team captures to the reply string (after the match the
source always replies: empty row sets get the fallback sentence). -/
def answerPassComparison (question : String)
    (passOracle : String → String → String) : Option String :=
  match matchPassCompare question.data with
  | none => none
  | some g =>
    let teamA : String := ⟨jsTrim g.1.data⟩
    let teamB : String := ⟨jsTrim g.2.data⟩
    if teamA = "" ∨ teamB = "" then none
    else some (passOracle teamA teamB)

/-- `setLastTeams(memory, a, b)` as a pure update (no-op unless both truthy). -/
def setLastTeams (memory : Memory) (a b : String) : Memory :=
  if a = "" ∨ b = "" then memory
  else { memory with scopes := { memory.scopes with last_teams := some (a, b) } }

/-- `/\d{4}\/\d{4}/.test(s)`. -/
def hasSeason44 (s : List Char) : Bool :=
  (List.range (s.length + 1)).any fun i =>
    match s.drop i with
    | a :: b :: c :: d :: '/' :: e :: f :: g :: h :: _ =>
      isDigitChar a && isDigitChar b && isDigitChar c && isDigitChar d &&
        isDigitChar e && isDigitChar f && isDigitChar g && isDigitChar h
    | _ => false

/-- `/match\s*id/i.test(s)`. -/
def hasMatchIdRef (s : List Char) : Bool :=
  (List.range (s.length + 1)).any fun i =>
    let r := s.drop i
    startsWithCI "match".data r &&
      startsWithCI "id".data ((r.drop 5).dropWhile isJsSpace)

/-- `/last\s+\d+\s+matches?/i.test(s)`. -/
def hasLastNMatchesRef (s : List Char) : Bool :=
  (List.range (s.length + 1)).any fun i =>
    (((eatCI "last" (s.drop i)).bind eatSpaces1).bind fun r =>
      let ds := r.takeWhile isDigitChar
      if ds.isEmpty then none
      else (eatSpaces1 (r.drop ds.length)).bind fun r2 =>
        eatCI "matche" r2).isSome

/-- The `clarification` field of `buildActionPlan(prompt, memory)` (the only
part of the plan that decides the dispatch; `forceTool` and `summary` only
shape the model request). -/
def buildActionPlanClarification (prompt : String) : Option String :=
  let cleaned := stripGreetingPreamble prompt
  let visual := isVisualizationPrompt cleaned
  if visual && containsStrCI cleaned "match" then
    let hasSeason := hasSeason44 cleaned.data
    let hasMatchId := hasMatchIdRef cleaned.data
    let hasOpponent := detectMultiTeamPrompt cleaned
    if !hasMatchId && !hasSeason then
      some "Which match should I use? You can provide a season (e.g., 2023/2024), a match ID, or the opponent."
    else if !hasMatchId && !hasOpponent then
      some "Which opponent or match ID should I use for the match request?"
    else none
  else none

/-- `/arrow|arrows|trajectory|trajector|direction/i.test(s)`. -/
def arrowsRequested (s : String) : Bool :=
  containsStrCI s "arrow" || containsStrCI s "trajector" ||
    containsStrCI s "direction"

/-- The outcome of one `proxyChat` dispatch: which early-return branch
replied (clarifying question, rendered chart, or plain text answer), or the
fall-through into the model/tool loop. -/
inductive Route where
  | clarify (text : String)
  | arrowsPass
  | earlyLastShots
  | shotsCompare
  | blockedShots
  | randomShotMap
  | learnedExact
  | learnedGeneral
  | pitchPlotPre
  | shotMapPre
  | scopeAsk
  | carryMap
  | blockMap
  | randomPasses
  | randomShots
  | lastShots
  | shotCompareMap
  | heatCompareMap
  | passCompareMap
  | shotTeam
  | pitchPlotTeam
  | pizza
  | radar
  | bumpy
  | conceded
  | aliasAsk (entity : String)
  | directAnswer (text : String)
  | toolLoop
deriving Repr, DecidableEq

/-- Does the dispatched handler contain a `render_mplsoccer` invocation
(`renderMplSoccerAndLearn`) on any of its paths?  `directAnswer`,
clarifying questions, the blocked-shots listing and the conceded-goals
answer never render; `toolLoop` renders only through an explicit
`render_mplsoccer` tool call, which is a separate decision of the model
loop. -/
def routeHasRenderCall : Route → Bool
  | .arrowsPass | .earlyLastShots | .shotsCompare | .randomShotMap
  | .learnedExact | .learnedGeneral | .pitchPlotPre | .shotMapPre
  | .carryMap | .blockMap | .randomPasses | .randomShots | .lastShots
  | .shotCompareMap | .heatCompareMap | .passCompareMap | .shotTeam
  | .pitchPlotTeam | .pizza | .radar | .bumpy => true
  | _ => false

/-- The guard chain of `proxyChat` (source "chat": no voice entity
resolution), as the sequence of early returns down to the model loop.
State writes that no later guard reads (`setLastEntity`, branch-internal
`setLastTeams`/`setLastMatchContext`) are not threaded, since the function
returns the dispatch outcome; `generalRenderOk` stands for
`image?.image_base64` of the learned-general render attempt (that branch
falls through when the render fails). -/
def proxyChatRoute (messages : List ChatMsg) (memory : Memory)
    (pending : Option Pending) (learnedTemplates : List LearnedTemplate)
    (generalRenderOk : Bool)
    (playersApi : String → Except Unit (List Player))
    (countApi : Nat → Option String)
    (passOracle : String → String → String) : Route :=
  let lastQuestionRaw := getLastUserMessage messages
  let cleanedQuestion := stripGreetingPreamble lastQuestionRaw
  let step := handlePendingClarification pending memory cleanedQuestion
  match step.1 with
  | some (.question q) => .clarify q
  | other =>
    let memory1 := step.2.2
    let lastQuestion :=
      match other with
      | some (.resolved r) => r
      | _ => resolveAlias cleanedQuestion memory1
    let baseParams := extractParamsFromPrompt lastQuestionRaw memory1
    let memory2 :=
      match truthyStr baseParams.team_a, truthyStr baseParams.team_b with
      | some a, some b => setLastTeams memory1 a b
      | _, _ => memory1
    match buildActionPlanClarification lastQuestionRaw with
    | some c => .clarify c
    | none =>
    let lastPassOk :=
      match memory2.scopes.last_pass_map with
      | some (t, mid) => t ≠ "" && mid ≠ 0
      | none => false
    if arrowsRequested lastQuestionRaw && lastPassOk then .arrowsPass
    else if (parseLastShotsComparePrompt lastQuestion).isSome then .earlyLastShots
    else if (parseShotsComparePrompt lastQuestion).isSome then .shotsCompare
    else if parseBlockedShotsPlayersPrompt lastQuestionRaw then .blockedShots
    else if (parseRandomShotMapPrompt lastQuestion).isSome then .randomShotMap
    else
    let learnedExact := learnedTemplates.find? fun t =>
      normalizePromptKey t.source_prompt = normalizePromptKey lastQuestionRaw
    let exactHit :=
      match learnedExact with
      | some t => t.name ≠ "" && t.chart_type ≠ "" &&
          isLearnedTemplateCompatible lastQuestionRaw t memory2
      | none => false
    if exactHit then .learnedExact
    else
    let learnedGeneral := learnedTemplates.find? fun t =>
      !t.intent_keywords.isEmpty &&
        t.intent_keywords.all fun k =>
          containsStr (normalizePromptKey lastQuestionRaw) k
    let generalHit :=
      match learnedGeneral with
      | some t =>
        t.query_template ≠ "" && t.chart_type ≠ "" &&
          isLearnedTemplateCompatible lastQuestionRaw t memory2 &&
          !(t.params.any fun p =>
            paramIsNull (extractParamsFromPrompt lastQuestionRaw memory2) p) &&
          generalRenderOk
      | none => false
    if generalHit then .learnedGeneral
    else
    let prePitch := resolveAlias lastQuestionRaw memory2
    let prePitchTeam :=
      if containsStrCI prePitch "pitch plot" && !containsStrCI prePitch "concede" &&
          !hasLastNMatchesRef prePitch.data then
        let parsedPitch := parsePitchPlotTeamPrompt prePitch
        let probe := (parsedPitch.map fun r => r.1).getD prePitch
        truthyStr ((findKnownTeam probe memory2).orElse fun _ =>
          parsedPitch.map fun r => r.1)
      else none
    if prePitchTeam.isSome then .pitchPlotPre
    else
    let preShot := resolveAlias lastQuestionRaw memory2
    let preShotTeam :=
      if containsStrCI preShot "shot map" &&
          !(containsStrCI preShot "comparing" || containsStrCI preShot "between" ||
            containsWithBoundaryAfter "vs" preShot.data ||
            containsWithBoundaryAfter "against" preShot.data) &&
          !containsStrCI preShot "concede" && !hasLastNMatchesRef preShot.data &&
          !containsStrCI preShot "random match" && !hasSeason44 preShot.data then
        let parsedShot := parseShotMapTeamPrompt preShot
        let probe := (parsedShot.map fun r => r.1).getD preShot
        truthyStr ((findKnownTeam probe memory2).orElse fun _ =>
          parsedShot.map fun r => r.1)
      else none
    if preShotTeam.isSome then .shotMapPre
    else
    let resolvedPending := match other with | some (.resolved _) => true | _ => false
    let skipAliasPrompt := resolvedPending || hasKnownAlias lastQuestionRaw memory2
    if needsScopeForVisual lastQuestionRaw then .scopeAsk
    else if (parseCarryMapPrompt lastQuestion).isSome then .carryMap
    else if (parseTeamBlockMapPrompt lastQuestion).isSome then .blockMap
    else if (parseRandomMatchPassesPrompt lastQuestion).isSome then .randomPasses
    else if (parseRandomMatchShotsPrompt lastQuestion).isSome then .randomShots
    else if (parseLastShotsComparePrompt lastQuestion).isSome then .lastShots
    else if (parseShotMapComparePrompt lastQuestion).isSome then .shotCompareMap
    else if (parseHeatmapComparePrompt lastQuestion).isSome then .heatCompareMap
    else if (parsePassMapComparePrompt lastQuestion).isSome then .passCompareMap
    else if (parseShotMapTeamPrompt lastQuestion).isSome then .shotTeam
    else
    let pitchPlotTeam := parsePitchPlotTeamPrompt lastQuestion
    let pitchHit :=
      if pitchPlotTeam.isSome || containsStrCI lastQuestion "pitch plot" then
        let probe := (pitchPlotTeam.map fun r => r.1).getD lastQuestion
        (truthyStr (((findKnownTeam probe memory2).orElse fun _ =>
          pitchPlotTeam.map fun r => r.1).orElse fun _ =>
            findKnownTeam lastQuestion memory2)).isSome
      else false
    if pitchHit then .pitchPlotTeam
    else if (parsePizzaPrompt lastQuestion).isSome then .pizza
    else if (parseRadarPrompt lastQuestion).isSome then .radar
    else if (parseBumpyPrompt lastQuestion).isSome then .bumpy
    else if (parseGoalsConcededPrompt lastQuestion).isSome then .conceded
    else
    let entity := extractEntityCandidate lastQuestionRaw
    let aliasHit :=
      match truthyStr entity with
      | some e =>
        !skipAliasPrompt && (lookupAssoc memory2.aliases e).isNone
      | none => false
    match truthyStr entity, aliasHit with
    | some e, true => .aliasAsk e
    | _, _ =>
      match (answerPassComparison lastQuestion passOracle).orElse fun _ =>
          answerGoalsQuestion lastQuestion playersApi countApi with
      | some t => .directAnswer t
      | none => .toolLoop

/-! MARKER-END-DEFS (further definitions are inserted above this line) -/

/-! ## Supporting lemmas -/

theorem startsWithCS_append (l m : List Char) : startsWithCS l (l ++ m) = true := by
  induction l with
  | nil => rfl
  | cons c cs ih => simp [startsWithCS, ih]

theorem startsWithCI_append (l m : List Char) : startsWithCI l (l ++ m) = true := by
  unfold startsWithCI lowerStr
  rw [List.map_append]
  exact startsWithCS_append _ _

theorem startsWithCS_iff_append (pat s : List Char) :
    startsWithCS pat s = true ↔ ∃ s₁, s = pat ++ s₁ := by
  induction pat generalizing s with
  | nil => simp [startsWithCS]
  | cons p ps ih =>
    cases s with
    | nil => simp [startsWithCS]
    | cons c cs =>
      simp only [startsWithCS, Bool.and_eq_true, decide_eq_true_eq, ih]
      constructor
      · rintro ⟨rfl, s₁, rfl⟩
        exact ⟨s₁, rfl⟩
      · rintro ⟨s₁, h⟩
        injection h with h1 h2
        exact ⟨h1.symm, s₁, h2⟩

theorem lowerChar_eq_lbrace {c : Char} (h : lowerChar c = '{') : c = '{' := by
  unfold lowerChar at h
  split at h
  · exfalso
    rename_i hc
    have hlo : 65 ≤ c.toNat := hc.1
    have hhi : c.toNat ≤ 90 := hc.2
    have hv : Nat.isValidChar (c.toNat + 32) := by left; omega
    have htn : (Char.ofNat (c.toNat + 32)).toNat = c.toNat + 32 := by
      unfold Char.ofNat
      rw [dif_pos hv]
      rfl
    have : (Char.ofNat (c.toNat + 32)).toNat = 123 := by rw [h]; rfl
    omega
  · exact h

theorem drop_cons_length_le (pat : List Char) (c : Char) (cs : List Char) :
    ((c :: cs).drop pat.length).length ≤ cs.length + 1 := by
  simp [List.length_drop]

theorem drop_cons_length_le_of_ne (pat : List Char) (hne : pat ≠ [])
    (c : Char) (cs : List Char) :
    ((c :: cs).drop pat.length).length ≤ cs.length := by
  cases pat with
  | nil => cases hne rfl
  | cons p ps =>
    simp only [List.length_cons, List.length_drop]
    omega

theorem guard_pat_ne {pat s : List Char}
    (h : (!pat.isEmpty && startsWithCI pat s) = true) : pat ≠ [] := by
  intro hnil
  subst hnil
  simp [List.isEmpty] at h

theorem replaceCIAux_fuel (pat rep : List Char) :
    ∀ f₁ f₂ s, s.length ≤ f₁ → s.length ≤ f₂ →
      replaceCIAux pat rep f₁ s = replaceCIAux pat rep f₂ s := by
  intro f₁
  induction f₁ with
  | zero =>
    intro f₂ s hs₁ _
    have : s = [] := List.length_eq_zero.mp (Nat.le_zero.mp hs₁)
    subst this
    cases f₂ <;> rfl
  | succ g ih =>
    intro f₂ s hs₁ hs₂
    cases s with
    | nil => cases f₂ <;> rfl
    | cons c cs =>
      have hcc : (c :: cs).length = cs.length + 1 := rfl
      cases f₂ with
      | zero => rw [hcc] at hs₂; omega
      | succ h =>
        rw [hcc] at hs₁ hs₂
        simp only [replaceCIAux]
        split
        · rename_i hguard
          have hne := guard_pat_ne hguard
          have hdl := drop_cons_length_le_of_ne pat hne c cs
          congr 1
          exact ih h _ (by omega) (by omega)
        · congr 1
          exact ih h _ (by omega) (by omega)

theorem scanExactAux_fuel (pat : List Char) :
    ∀ f₁ f₂ s, s.length ≤ f₁ → s.length ≤ f₂ →
      scanExactAux pat f₁ s = scanExactAux pat f₂ s := by
  intro f₁
  induction f₁ with
  | zero =>
    intro f₂ s hs₁ _
    have : s = [] := List.length_eq_zero.mp (Nat.le_zero.mp hs₁)
    subst this
    cases f₂ <;> rfl
  | succ g ih =>
    intro f₂ s hs₁ hs₂
    cases s with
    | nil => cases f₂ <;> rfl
    | cons c cs =>
      have hcc : (c :: cs).length = cs.length + 1 := rfl
      cases f₂ with
      | zero => rw [hcc] at hs₂; omega
      | succ h =>
        rw [hcc] at hs₁ hs₂
        simp only [scanExactAux]
        split
        · rename_i hguard
          have hne := guard_pat_ne hguard
          have hdl := drop_cons_length_le_of_ne pat hne c cs
          congr 1
          exact ih h _ (by omega) (by omega)
        · exact ih h _ (by omega) (by omega)

theorem lowerChar_lbrace : lowerChar '{' = '{' := by decide

/-- Key inversion: replacing exact occurrences of `pat` by a marker that
starts with a character absent from the text, then replacing the marker back,
restores the original text. -/
theorem replaceCI_roundtrip (pat rs : List Char) (hpat : pat ≠ [])
    (hpatb : '{' ∉ pat) :
    ∀ n s, s.length ≤ n → '{' ∉ s → scanExactAux pat s.length s = true →
      replaceCIAux ('{' :: rs) pat (replaceCIAux pat ('{' :: rs) s.length s).length
        (replaceCIAux pat ('{' :: rs) s.length s) = s := by
  set rep : List Char := '{' :: rs with hrep
  intro n
  induction n with
  | zero =>
    intro s hs _ _
    have : s = [] := List.length_eq_zero.mp (Nat.le_zero.mp hs)
    subst this
    rfl
  | succ n ih =>
    intro s hs hmem hscan
    cases s with
    | nil => rfl
    | cons c cs =>
      have hpatlen : 1 ≤ pat.length := by
        cases pat with
        | nil => cases hpat rfl
        | cons p ps => simp
      have hclen : (c :: cs).length = cs.length + 1 := rfl
      by_cases hguard : (!pat.isEmpty && startsWithCI pat (c :: cs)) = true
      · -- the first pass matches `pat` here; the match is exact by `hscan`
        have hscan' := hscan
        rw [hclen] at hscan'
        simp only [scanExactAux, hguard, if_true] at hscan'
        rw [Bool.and_eq_true] at hscan'
        obtain ⟨hcs, hrest⟩ := hscan'
        obtain ⟨s₁, hsplit⟩ := (startsWithCS_iff_append pat (c :: cs)).mp hcs
        have hdrop : (c :: cs).drop pat.length = s₁ := by
          rw [hsplit]; exact List.drop_left pat s₁
        have hs₁len : s₁.length ≤ cs.length := by
          have := congrArg List.length hsplit
          simp only [List.length_cons, List.length_append] at this
          omega
        have hpass1 : replaceCIAux pat rep (cs.length + 1) (c :: cs) =
            rep ++ replaceCIAux pat rep s₁.length s₁ := by
          simp only [replaceCIAux, hguard, if_true, hdrop]
          congr 1
          exact replaceCIAux_fuel pat rep cs.length s₁.length s₁ hs₁len le_rfl
        have hmem₁ : '{' ∉ s₁ := by
          intro h
          exact hmem (by rw [hsplit]; exact List.mem_append_right pat h)
        have hscan₁ : scanExactAux pat s₁.length s₁ = true := by
          rw [hdrop] at hrest
          rw [scanExactAux_fuel pat s₁.length cs.length s₁ le_rfl hs₁len]
          exact hrest
        set R₁ := replaceCIAux pat rep s₁.length s₁ with hR₁
        have hpass2 : replaceCIAux rep pat (rep ++ R₁).length (rep ++ R₁) =
            pat ++ replaceCIAux rep pat R₁.length R₁ := by
          have hlen : (rep ++ R₁).length = rs.length + R₁.length + 1 := by
            simp [hrep, List.length_append]
          have hg2 : (!rep.isEmpty && startsWithCI rep (rep ++ R₁)) = true := by
            rw [hrep]
            simp only [List.isEmpty, Bool.not_false, Bool.true_and]
            exact startsWithCI_append _ _
          rw [hrep] at hg2 ⊢
          have hcons : ('{' :: rs) ++ R₁ = '{' :: (rs ++ R₁) := rfl
          rw [hcons]
          have hlen2 : ('{' :: (rs ++ R₁)).length = (rs ++ R₁).length + 1 := rfl
          rw [hlen2]
          simp only [replaceCIAux, ← hcons, hg2, if_true]
          congr 1
          have hdrop2 : (('{' :: rs) ++ R₁).drop ('{' :: rs).length = R₁ :=
            List.drop_left _ _
          rw [hdrop2]
          apply replaceCIAux_fuel
          · have : (rs ++ R₁).length = rs.length + R₁.length := by
              simp [List.length_append]
            omega
          · exact le_rfl
        have hih : replaceCIAux rep pat R₁.length R₁ = s₁ := by
          have hs₁n : s₁.length ≤ n := by
            rw [hclen] at hs
            omega
          exact ih s₁ hs₁n hmem₁ hscan₁
        rw [hclen, hpass1, hpass2, hih, ← hsplit]
      · -- no match here: the head character is copied through both passes
        have hguardF : (!pat.isEmpty && startsWithCI pat (c :: cs)) = false := by
          simpa using hguard
        have hscan' := hscan
        rw [hclen] at hscan'
        simp only [scanExactAux, hguardF, Bool.false_eq_true, if_false] at hscan'
        have hmemc : c ≠ '{' := by
          intro h
          exact hmem (h ▸ List.mem_cons_self c cs)
        have hmemcs : '{' ∉ cs := fun h => hmem (List.mem_cons_of_mem c h)
        have hpass1 : replaceCIAux pat rep (cs.length + 1) (c :: cs) =
            c :: replaceCIAux pat rep cs.length cs := by
          simp only [replaceCIAux, hguardF, Bool.false_eq_true, if_false]
        set R₂ := replaceCIAux pat rep cs.length cs with hR₂
        have hg2 : (!rep.isEmpty && startsWithCI rep (c :: R₂)) = false := by
          rw [hrep]
          simp only [List.isEmpty, Bool.not_false, Bool.true_and]
          unfold startsWithCI lowerStr
          simp only [List.map_cons, startsWithCS, lowerChar_lbrace]
          have : ¬ ('{' = lowerChar c) := by
            intro h
            exact hmemc (lowerChar_eq_lbrace h.symm)
          simp [this]
        have hpass2 : replaceCIAux rep pat (c :: R₂).length (c :: R₂) =
            c :: replaceCIAux rep pat R₂.length R₂ := by
          have : (c :: R₂).length = R₂.length + 1 := rfl
          rw [this]
          simp only [replaceCIAux, hg2, Bool.false_eq_true, if_false]
        have hih : replaceCIAux rep pat R₂.length R₂ = cs := by
          have : cs.length ≤ n := by
            rw [hclen] at hs
            omega
          exact ih cs this hmemcs hscan'
        rw [hclen, hpass1, hpass2, hih]

theorem escQuotes_ne_nil {l : List Char} (h : l ≠ []) : escQuotes l ≠ [] := by
  cases l with
  | nil => cases h rfl
  | cons c cs =>
    unfold escQuotes
    split <;> simp

theorem mem_escQuotes {c : Char} : ∀ {l : List Char}, c ∈ escQuotes l →
    c = '\x27' ∨ c ∈ l := by
  intro l h
  induction l with
  | nil => exact absurd h (by simp [escQuotes])
  | cons d ds ih =>
    unfold escQuotes at h
    by_cases hd : d = '\x27'
    · rw [if_pos hd] at h
      simp only [List.mem_cons] at h
      rcases h with h | h | h
      · exact Or.inl h
      · exact Or.inl h
      · rcases ih h with h2 | h2
        · exact Or.inl h2
        · exact Or.inr (List.mem_cons_of_mem d h2)
    · rw [if_neg hd] at h
      simp only [List.mem_cons] at h
      rcases h with h | h
      · exact Or.inr (by simp [h])
      · rcases ih h with h2 | h2
        · exact Or.inl h2
        · exact Or.inr (List.mem_cons_of_mem d h2)

/-- A `$`-free replacement string passes through `expandDollar` unchanged. -/
theorem expandDollar_no_dollar :
    ∀ (m b a rep : List Char), ('$' : Char) ∉ rep →
      expandDollar m b a rep = rep := by
  intro m b a rep
  induction rep with
  | nil => intro _; rfl
  | cons c rest ih =>
    intro h
    have hc : c ≠ '$' := fun hh => h (hh ▸ List.mem_cons_self c rest)
    have hrest : ('$' : Char) ∉ rest := fun hh => h (List.mem_cons_of_mem c hh)
    rw [expandDollar.eq_def]
    dsimp only
    rw [if_neg hc, ih hrest]

/-- On a `$`-free replacement the substituting scan agrees with the literal
one, whatever subject and offset the context slices are taken from. -/
theorem replaceDollarCIAux_no_dollar (pat rep orig : List Char)
    (hrep : ('$' : Char) ∉ rep) :
    ∀ (fuel off : Nat) (s : List Char),
      replaceDollarCIAux pat rep orig off fuel s =
        replaceCIAux pat rep fuel s := by
  intro fuel
  induction fuel with
  | zero => intro off s; cases s <;> rfl
  | succ f ih =>
    intro off s
    cases s with
    | nil => rfl
    | cons c cs =>
      simp only [replaceDollarCIAux, replaceCIAux]
      split
      · rw [expandDollar_no_dollar _ _ _ rep hrep, ih]
      · rw [ih]

/-- C1 (amended): for a parameter set carrying only `team = v`, if every
case-insensitive occurrence of the escaped value in the query is exact,
neither the query nor the value contains a `\x7b` brace, and the value
contains no dollar sign (whose ECMAScript `$`-substitution in the refill
replacement would rewrite the restored text), then filling the built
template restores the query verbatim. -/
theorem fillQueryTemplate_buildQueryTemplate_team_roundtrip
    (q v t : String) (hv : v ≠ "")
    (hq : ('{' : Char) ∉ q.data) (hvb : ('{' : Char) ∉ v.data)
    (hvd : ('$' : Char) ∉ v.data)
    (hexact : scanExactCI (escapeSqlQuotes v) q = true)
    (hbuild : buildQueryTemplate q { team := some v } = some t) :
    fillQueryTemplate t { team := some v } = q := by
  unfold buildQueryTemplate at hbuild
  by_cases hq0 : q = ""
  · rw [if_pos hq0] at hbuild
    cases hbuild
  · rw [if_neg hq0] at hbuild
    simp only [truthyStr, hv, if_neg, if_false] at hbuild
    have ht : t = replaceAllCI q (escapeSqlQuotes v) "{{team}}" :=
      (Option.some.inj hbuild).symm
    have hfill : fillQueryTemplate t { team := some v } =
        replaceAllSubstCI t "{{team}}" (escapeSqlQuotes v) := by
      unfold fillQueryTemplate
      simp [truthyStr, hv]
    have hnodollar : ('$' : Char) ∉ (escapeSqlQuotes v).data := by
      intro hmem
      rcases mem_escQuotes hmem with h | h
      · exact absurd h (by decide)
      · exact hvd h
    have hbridge : replaceAllSubstCI t "{{team}}" (escapeSqlQuotes v) =
        replaceAllCI t "{{team}}" (escapeSqlQuotes v) := by
      unfold replaceAllSubstCI replaceAllCI
      rw [replaceDollarCIAux_no_dollar _ _ _ hnodollar]
    rw [hfill, hbridge]
    have hpatne : (escapeSqlQuotes v).data ≠ [] := by
      apply escQuotes_ne_nil
      intro hnil
      apply hv
      have : v.data = [] := hnil
      cases v
      simp at this
      simp [this]
    have hpatb : ('{' : Char) ∉ (escapeSqlQuotes v).data := by
      intro hmem
      rcases mem_escQuotes hmem with h | h
      · cases h
      · exact hvb h
    have hkey := replaceCI_roundtrip (escapeSqlQuotes v).data "\x7bteam\x7d\x7d".data
      hpatne hpatb q.data.length q.data le_rfl hq hexact
    rw [ht]
    unfold replaceAllCI
    have hrepdata : ("{{team}}" : String).data = '{' :: "\x7bteam\x7d\x7d".data := rfl
    simp only [hrepdata]
    exact (congrArg String.mk hkey).trans rfl

/-- C1 witness: concrete run of the amended round-trip theorem. -/
theorem fillQueryTemplate_buildQueryTemplate_team_roundtrip_witness :
    fillQueryTemplate "select x from e where team_name ilike '%{{team}}%'"
      { team := some "Zamalek" } =
      "select x from e where team_name ilike '%Zamalek%'" :=
  fillQueryTemplate_buildQueryTemplate_team_roundtrip
    "select x from e where team_name ilike '%Zamalek%'" "Zamalek"
    "select x from e where team_name ilike '%{{team}}%'"
    (by decide) (by decide) (by decide) (by decide) (by decide) (by decide)

/-- C1 counterexample: with the parameter set extracted from the prompt
"Ahly vs team", template building succeeds, yet filling the built template
does not put the escaped literal `Ahly` back: the second parameter's
replacement pass (`team_b = "team"`) rewrites the inside of the already
placed `\x7b\x7bteam_a\x7d\x7d` placeholder, so the refilled query has lost
the literal entirely and is not semantically equivalent to the original. -/
theorem fillQueryTemplate_buildQueryTemplate_not_inverse :
    extractParamsFromPrompt "Ahly vs team" {} =
      { team_a := some "Ahly", team_b := some "team" } ∧
    buildQueryTemplate "select x from e where team_name ilike '%Ahly%'"
      { team_a := some "Ahly", team_b := some "team" } =
      some "select x from e where {{team_b}}_name ilike '%{{{{team_b}}_a}}%'" ∧
    fillQueryTemplate "select x from e where {{team_b}}_name ilike '%{{{{team_b}}_a}}%'"
      { team_a := some "Ahly", team_b := some "team" } =
      "select x from e where team_name ilike '%{{team_a}}%'" ∧
    ("select x from e where team_name ilike '%{{team_a}}%'" ≠
      "select x from e where team_name ilike '%Ahly%'") ∧
    containsStr "select x from e where team_name ilike '%{{team_a}}%'" "Ahly" = false ∧
    containsStr "select x from e where team_name ilike '%Ahly%'" "Ahly" = true := by
  refine ⟨by decide, by decide, by decide, by decide, by decide, by decide⟩

/-- C2: for a multi-team source prompt, `addLearnedTemplate` stores a template
only if the derived template contains both `\x7b\x7bteam_a\x7d\x7d` and
`\x7b\x7bteam_b\x7d\x7d`; a derivation missing either placeholder leaves the
learned-template list unchanged, and whenever an entry is appended its stored
template carries both placeholders. -/
theorem addLearnedTemplate_multiTeam_requires_both_placeholders
    (chartType query sourcePrompt : String) (memory : Memory)
    (semantic : List LearnedTemplate)
    (hmt : detectMultiTeamPrompt sourcePrompt = true) :
    (∀ t, buildQueryTemplate query (extractParamsFromPrompt sourcePrompt memory) = some t →
        (containsStr t "{{team_a}}" = false ∨ containsStr t "{{team_b}}" = false) →
        addLearnedTemplate chartType query sourcePrompt memory semantic = semantic) ∧
      (∀ l, addLearnedTemplate chartType query sourcePrompt memory semantic =
          semantic ++ [l] →
        containsStr l.query_template "{{team_a}}" = true ∧
          containsStr l.query_template "{{team_b}}" = true) := by
  constructor
  · intro t hbuild hmiss
    unfold addLearnedTemplate
    split
    · rfl
    · rename_i hne
      have hreject : (detectMultiTeamPrompt sourcePrompt &&
          (match buildQueryTemplate query (extractParamsFromPrompt sourcePrompt memory) with
            | some t => !(containsStr t "{{team_a}}" && containsStr t "{{team_b}}")
            | none => false)) = true := by
        rw [hbuild, hmt]
        rcases hmiss with h | h <;> simp [h]
      simp only [hbuild] at hreject ⊢
      rw [hreject]
      simp
  · intro l happ
    by_cases hguard : chartType = "" ∨ query = "" ∨ sourcePrompt = ""
    · unfold addLearnedTemplate at happ
      rw [if_pos hguard] at happ
      exact absurd (congrArg List.length happ) (by simp)
    · have hq : query ≠ "" := fun h => hguard (Or.inr (Or.inl h))
      rcases htq : buildQueryTemplate query (extractParamsFromPrompt sourcePrompt memory) with _ | t
      · exfalso
        unfold buildQueryTemplate at htq
        rw [if_neg hq] at htq
        cases htq
      · unfold addLearnedTemplate at happ
        rw [if_neg hguard] at happ
        simp only [htq, hmt, Bool.true_and, Option.getD_some] at happ
        by_cases hboth : (containsStr t "{{team_a}}" && containsStr t "{{team_b}}") = true
        · have hl : l.query_template = t := by
            rw [hboth] at happ
            simp only [Bool.not_true, Bool.false_eq_true, if_false] at happ
            split at happ
            · exact absurd (congrArg List.length happ) (by simp)
            · have := List.append_inj_right happ rfl
              injection this with h1 _
              simp [← h1]
          rw [hl]
          simpa using hboth
        · exfalso
          rw [Bool.not_eq_true] at hboth
          rw [hboth] at happ
          simp only [Bool.not_false, if_true] at happ
          exact absurd (congrArg List.length happ) (by simp)

/-- C3 counterexample: for the single-team prompt "Last 100 shots for Al
Ahly" the compare parser does not fire and `enforceLastNLimit` appends a
plain `limit 100`; the compiled query has no window function, no partition by
`team_name` and no `rn <= 100` filter. -/
theorem enforceLastNLimit_single_team_plain_limit :
    parseLastShotsComparePrompt "Last 100 shots for Al Ahly" = none ∧
    enforceLastNLimit
      "select x, y from viz_match_events_with_match where event_name in ('Shoot','Shoot Location','Penalty')"
      "Last 100 shots for Al Ahly" none =
      "select x, y from viz_match_events_with_match where event_name in ('Shoot','Shoot Location','Penalty') limit 100" ∧
    containsStr
      (enforceLastNLimit
        "select x, y from viz_match_events_with_match where event_name in ('Shoot','Shoot Location','Penalty')"
        "Last 100 shots for Al Ahly" none) "row_number" = false ∧
    containsStr
      (enforceLastNLimit
        "select x, y from viz_match_events_with_match where event_name in ('Shoot','Shoot Location','Penalty')"
        "Last 100 shots for Al Ahly" none) "partition by" = false := by
  refine ⟨by decide, by decide, by decide, by decide⟩

/-- C3 (amended): the window-function limit is produced for multi-team
last-N-shots prompts.  "last 100 shots for Al Ahly vs Zamalek" parses into
the compare handler, whose hand-built query partitions by `team_name`, orders
by `date_time desc` and keeps `rn <= 100`; `enforceLastNLimit` builds the same
window shape for a multi-team prompt when the query carries the partition and
recency columns.  A single-team prompt instead gets a plain appended
`limit N`. -/
theorem enforceLastNLimit_multi_team_window :
    parseLastShotsComparePrompt "last 100 shots for Al Ahly vs Zamalek" =
      some ("Al Ahly", "Zamalek", 100) ∧
    buildLastShotsCompareQuery "Al Ahly" "Zamalek" 100 =
      "with ranked as (select team_name, x, y, event_name, date_time, row_number() over (partition by team_name order by date_time desc) as rn from viz_match_events_with_match where event_name in ('Shoot','Shoot Location','Penalty') and (team_name ilike '%Al Ahly%' or team_name ilike '%Zamalek%')) select team_name, x, y, event_name from ranked where rn <= 100" ∧
    enforceLastNLimit
      "select team_name, x, y, date_time from viz_match_events_with_match"
      "last 100 shots for Al Ahly vs Zamalek" none =
      "with ranked as (select team_name, x, y, date_time from viz_match_events_with_match) select * from (select *, row_number() over (partition by team_name order by date_time desc) as rn from ranked) as limited where rn <= 100" ∧
    enforceLastNLimit
      "select team_name, x, y, date_time from viz_match_events_with_match"
      "Last 100 shots for Al Ahly" none =
      "select team_name, x, y, date_time from viz_match_events_with_match limit 100" := by
  refine ⟨by decide, by decide, by decide, by decide⟩

/-- C4 counterexample: after the end_x repair retry fails with a statement
timeout, `runSqlRpc` (default `attempts = 2`) applies a second repair and
issues a third request instead of surfacing the raw error — three queries are
posted in one call chain. -/
theorem runSqlRpc_second_repair_in_call_chain :
    rewriteSqlOnError "select end_x, x from events"
      "column \"end_x\" does not exist" = "select x from events" ∧
    runSqlRpc "select end_x, x from events" {}
      [.err "column \"end_x\" does not exist",
        .err "canceling statement due to statement timeout", .ok] 2 =
      ⟨["select end_x, x from events", "select x from events",
        "select x from events limit 5000"], .ok ()⟩ ∧
    (runSqlRpc "select end_x, x from events" {}
      [.err "column \"end_x\" does not exist",
        .err "canceling statement due to statement timeout", .ok] 2).sent.length
      = 3 := by
  refine ⟨by decide, by decide, by decide⟩

/-- C4 (amended): on an error naming an unknown `end_x` column the query is
rewritten once and retried; when the retry fails with an error whose rewrite
leaves the query unchanged, that second raw error is surfaced and no further
request is made.  (A second repair retry is possible — see the
counterexample — because `attempts` defaults to 2.) -/
theorem runSqlRpc_one_repair_then_raw_error
    (q e1 e2 r1 : String) (schema : Schema)
    (hq : q ≠ "")
    (hclean : cleanRpcQuery q = q)
    (hsemi : containsStr q ";" = false)
    (hvalid : validateColumnsInSql q schema = true)
    (hr1 : rewriteSqlOnError q e1 = r1)
    (hr1nne : r1 ≠ "") (hr1ne : r1 ≠ q)
    (hr1clean : cleanRpcQuery r1 = r1)
    (hr1semi : containsStr r1 ";" = false)
    (hr1valid : validateColumnsInSql r1 schema = true)
    (he2 : rewriteSqlOnError r1 e2 = r1)
    (he2ne : e2 ≠ "") :
    runSqlRpc q schema [.err e1, .err e2] 2 = ⟨[q, r1], .error e2⟩ := by
  rw [runSqlRpc.eq_def]
  rw [if_neg hq]
  simp only [hclean, hsemi, hvalid, Bool.false_eq_true, if_false, Bool.not_true,
    Bool.not_false, if_true, List.head?_cons, List.tail_cons, hr1]
  rw [if_pos ⟨hr1nne, hr1ne⟩]
  rw [runSqlRpc.eq_def]
  rw [if_neg hr1nne]
  simp only [hr1clean, hr1semi, hr1valid, Bool.false_eq_true, if_false,
    Bool.not_true, Bool.not_false, if_true, List.head?_cons, List.tail_cons, he2]
  rw [if_neg (by intro h; exact h.2 rfl)]
  rw [if_neg he2ne]

/-- C4 witness: end_x repair, then a non-repairable error surfaces raw. -/
theorem runSqlRpc_one_repair_then_raw_error_witness :
    runSqlRpc "select end_x, x from events" {}
      [.err "column \"end_x\" does not exist", .err "permission denied"] 2 =
      ⟨["select end_x, x from events", "select x from events"],
        .error "permission denied"⟩ :=
  runSqlRpc_one_repair_then_raw_error "select end_x, x from events"
    "column \"end_x\" does not exist" "permission denied" "select x from events"
    {} (by decide) (by decide) (by decide) (by decide) (by decide) (by decide)
    (by decide) (by decide) (by decide) (by decide) (by decide) (by decide)

/-- C10 counterexample: a query that contains a (trailing) semicolon is not
refused — the trailing run is stripped and the request is posted. -/
theorem runSqlRpc_trailing_semicolon_not_rejected :
    containsStr "select 1;" ";" = true ∧
    runSqlRpc "select 1;" {} [.ok] 2 = ⟨["select 1"], .ok ()⟩ := by
  refine ⟨by decide, by decide⟩

/-- C10 (amended): only a semicolon that survives the trailing-run strip
(i.e. an interior semicolon, the multi-statement case) is refused, with the
error raised before any request reaches the gateway. -/
theorem runSqlRpc_interior_semicolon_rejected
    (q : String) (schema : Schema) (oracle : List RpcResp) (attempts : Nat)
    (hq : q ≠ "")
    (hsemi : containsStr (cleanRpcQuery q) ";" = true) :
    runSqlRpc q schema oracle attempts =
      ⟨[], .error "Multiple statements are not allowed"⟩ := by
  rw [runSqlRpc.eq_def]
  rw [if_neg hq]
  simp only [hsemi, if_true]

/-- C10 witness: an interior semicolon (a genuine multi-statement input) is
refused with no request sent. -/
theorem runSqlRpc_interior_semicolon_rejected_witness :
    runSqlRpc "select 1; drop table x" {} [.ok] 2 =
      ⟨[], .error "Multiple statements are not allowed"⟩ :=
  runSqlRpc_interior_semicolon_rejected "select 1; drop table x" {} [.ok] 2
    (by decide) (by decide)


/-- C5: the fuzzy letter-interspersed ILIKE pattern is interpolated without
quote-escaping.  For the block-map prompt naming the team "Ain M'lila" the
parser extracts the team, the exact-match side of the query carries the
properly doubled quote (`Ain M''lila`), but the fuzzy side embeds the raw
apostrophe (`A%i%n%M%'%l%i%l%a`), leaving the whole query with an odd number
of quote characters — the string literal nesting is broken. -/
theorem fuzzyLikePattern_block_query_unescaped_quote :
    parseTeamBlockMapPrompt "show me a map of all the blocks that Ain M'lila made" =
      some ("Ain M'lila", none) ∧
    escapeSqlQuotes "Ain M'lila" = "Ain M''lila" ∧
    fuzzyLikePattern "Ain M'lila" = "A%i%n%M%'%l%i%l%a" ∧
    containsStr (buildBlockMapQuery "Ain M'lila" none) "Ain M''lila" = true ∧
    containsStr (buildBlockMapQuery "Ain M'lila" none) "A%i%n%M%'%l%i%l%a" = true ∧
    countChar (buildBlockMapQuery "Ain M'lila" none) '\x27' % 2 = 1 := by
  refine ⟨by decide, by decide, by decide, by decide, by decide, by decide⟩

/-- C6 counterexample: with the default `retries = 2` used by the chat
handler's completion calls, a request-timeout abort is retried up to twice,
not exactly once — after two aborts a third request is issued and its
success is returned. -/
theorem callOpenRouter_abort_retried_twice :
    callOpenRouter "m" [.abortTimeout, .abortTimeout, .ok 7] 2 (some "fb") =
      ⟨["m", "m", "m"], .ok 7⟩ ∧
    (callOpenRouter "m" [.abortTimeout, .abortTimeout, .ok 7] 2
      (some "fb")).sentModels.length = 3 := by
  refine ⟨by decide, by decide⟩

/-- C6 (amended): a request-timeout abort is retried while retries remain (up
to two with the default `retries = 2`), after which the abort error
propagates; a 5xx or 429 response triggers a one-shot fallback to the
secondary model unless the request already uses it, a failed fallback
surfaces the first response's message without further requests, and any
other network error propagates unretried as an error value rather than a
crash. -/
theorem callOpenRouter_retry_and_fallback_policy :
    callOpenRouter "m" [.abortTimeout, .abortTimeout, .ok 7] 2 (some "fb") =
      ⟨["m", "m", "m"], .ok 7⟩ ∧
    callOpenRouter "m" [.abortTimeout, .abortTimeout, .abortTimeout] 2 (some "fb") =
      ⟨["m", "m", "m"], .error "AbortError"⟩ ∧
    callOpenRouter "m" [.httpErr 500 "boom", .ok 3] 2 (some "fb") =
      ⟨["m", "fb"], .ok 3⟩ ∧
    callOpenRouter "m" [.httpErr 429 "rate", .ok 9] 2 (some "fb") =
      ⟨["m", "fb"], .ok 9⟩ ∧
    callOpenRouter "fb" [.httpErr 500 "boom"] 2 (some "fb") =
      ⟨["fb"], .error "boom"⟩ ∧
    callOpenRouter "m" [.httpErr 500 "boom", .httpErr 502 "again"] 2 (some "fb") =
      ⟨["m", "fb"], .error "boom"⟩ ∧
    callOpenRouter "m" [.netErr "ECONNRESET"] 2 (some "fb") =
      ⟨["m"], .error "ECONNRESET"⟩ := by
  refine ⟨by decide, by decide, by decide, by decide, by decide, by decide,
    by decide⟩

theorem foldl_append_singleton (calls : List String) :
    ∀ acc : List String, calls.foldl (fun l2 c => l2 ++ [c]) acc = acc ++ calls := by
  induction calls with
  | nil => intro acc; simp
  | cons c cs ih =>
    intro acc
    simp only [List.foldl_cons, ih]
    simp

theorem execLog_foldl (rounds : List (List String)) :
    ∀ acc : List String,
      rounds.foldl (fun l calls => calls.foldl (fun l2 c => l2 ++ [c]) l) acc =
        acc ++ rounds.flatten := by
  induction rounds with
  | nil => intro acc; simp
  | cons r rs ih =>
    intro acc
    rw [List.foldl_cons, foldl_append_singleton r acc, ih (acc ++ r),
      List.flatten_cons, List.append_assoc]

theorem toolLoopGo_length_le (oracle : Nat → Option (List String))
    (execImg : String → Bool) (isVisual : Bool) :
    ∀ r i resp, (toolLoopGo oracle execImg isVisual r i resp).length ≤ r := by
  intro r
  induction r with
  | zero => intro i resp; simp [toolLoopGo]
  | succ n ih =>
    intro i resp
    cases resp with
    | none => simp [toolLoopGo]
    | some calls =>
      simp only [toolLoopGo]
      split
      · simp
      · simpa using Nat.succ_le_succ (ih _ _)

/-- C7: the tool loop of one request runs at most 6 rounds for every response
oracle (it always terminates), and the tool calls of each model turn are
executed sequentially in the order received: the sequential execution log
equals the round-by-round concatenation of the calls as returned. -/
theorem toolLoop_bounded_and_sequential (oracle : Nat → Option (List String))
    (execImg : String → Bool) (isVisual : Bool) (init : Option (List String)) :
    (toolLoopRounds oracle execImg isVisual init).length ≤ 6 ∧
      execLog (toolLoopRounds oracle execImg isVisual init) =
        (toolLoopRounds oracle execImg isVisual init).flatten := by
  constructor
  · exact toolLoopGo_length_le oracle execImg isVisual 6 0 init
  · unfold execLog
    simpa using execLog_foldl (toolLoopRounds oracle execImg isVisual init) []

/-- C2 witness: concrete multi-team prompt whose derivation lacks the
placeholders, so nothing is stored. -/
theorem addLearnedTemplate_multiTeam_requires_both_placeholders_witness :
    detectMultiTeamPrompt "a vs b" = true ∧
      addLearnedTemplate "shot_map" "select 1" "a vs b" {} [] = [] := by
  refine ⟨by decide, ?_⟩
  exact (addLearnedTemplate_multiTeam_requires_both_placeholders "shot_map"
    "select 1" "a vs b" {} [] (by decide)).1 "select 1" (by decide)
    (Or.inl (by decide))

/-- C9: for the input "how many goals did Mohamed Salah score?" (fresh
memory, no pending clarification, no learned templates), the `proxyChat`
dispatch chain reaches the direct-answer branch — every earlier guard
(clarifications, the chart parsers, the learned templates, the scope and
alias probes) declines — and replies with the sentence built by
`answerGoalsQuestion` from the player row and the count header, of the form
"<player> has scored <N> goals in the database."; the dispatched branch
contains no `render_mplsoccer` invocation, and the model/tool loop is never
entered. -/
theorem proxyChat_goals_question_direct_answer :
    proxyChatRoute [⟨"user", "how many goals did Mohamed Salah score?"⟩] {}
        none [] false
        (fun term =>
          if term = "Mohamed Salah" then .ok [⟨77, "Mohamed Salah"⟩] else .ok [])
        (fun pid => if pid = 77 then some "0-4/5" else none)
        (fun a b => a ++ "/" ++ b) =
      .directAnswer "Mohamed Salah has scored 5 goals in the database." ∧
    routeHasRenderCall
        (proxyChatRoute [⟨"user", "how many goals did Mohamed Salah score?"⟩] {}
          none [] false
          (fun term =>
            if term = "Mohamed Salah" then .ok [⟨77, "Mohamed Salah"⟩] else .ok [])
          (fun pid => if pid = 77 then some "0-4/5" else none)
          (fun a b => a ++ "/" ++ b)) = false :=
  ⟨by decide, by decide⟩

end Pss






